import Mathlib

/-!
# Las Venturas Playground: command access, the player database and feature commands

A shallow embedding of `javascript/features/playground/playground_access_tracker.js`,
of `javascript/features/nuwani_commands/player_database.js` and of the command
registration of `race_commands.js` and `gang_commands.js`, and the properties of them
that the specification states.

Modelling conventions.

* A JavaScript `Map` is an insertion-ordered association list (`JsMap`), a `Set` an
  insertion-ordered list (`JsSet`). `Map.prototype.get` answering `undefined` is `none`.
* Player objects are mutable and are compared by identity when used as `Map` keys. A
  `Player` value is the snapshot of a player object at the moment of a call: `ref` is the
  object identity (the key of `exceptions_` and `userIds_`), the other fields are what the
  code reads from the object during that call.
* Privilege levels are integers. Commands are strings. User ids are numbers or `undefined`
  (`Option Nat`), and `undefined` is a legal `Map` key.
* `player.sendMessage(...)` and `wait(...).then(...)` are effects on the environment; they
  are recorded in the two logs `sent` and `timers` carried next to the tracker's own fields.
* `Math.random()` is an input: `onPlayerDisconnect` takes the token it would have drawn.
* An operation that can `throw` answers in `Except String`, the error carrying the message.
-/

set_option autoImplicit false

/-! ## JavaScript `Set` and `Map` -/

/-- An insertion-ordered JavaScript `Set`. -/
abbrev JsSet (α : Type) := List α

/-- An insertion-ordered JavaScript `Map`. -/
abbrev JsMap (κ ν : Type) := List (κ × ν)

namespace JsSet

variable {α : Type} [DecidableEq α]

/-- `Set.prototype.has`. -/
def has (s : JsSet α) (a : α) : Bool :=
  decide (a ∈ s)

/-- `Set.prototype.add`: a value already present keeps its place. -/
def add (s : JsSet α) (a : α) : JsSet α :=
  if a ∈ s then s else s ++ [a]

/-- `Set.prototype.delete`. -/
def delete (s : JsSet α) (a : α) : JsSet α :=
  s.filter (fun b => decide (b ≠ a))

/-- `Set.prototype.size`. -/
def size (s : JsSet α) : Nat :=
  s.length

end JsSet

namespace JsMap

variable {κ ν : Type} [DecidableEq κ]

/-- `Map.prototype.get`, with `none` for `undefined`. -/
def get : JsMap κ ν → κ → Option ν
  | [], _ => none
  | (k, v) :: rest, key => if k = key then some v else get rest key

/-- `Map.prototype.has`. -/
def has (m : JsMap κ ν) (key : κ) : Bool :=
  (get m key).isSome

/-- `Map.prototype.set`: an existing key keeps its place, a new key goes last. -/
def set : JsMap κ ν → κ → ν → JsMap κ ν
  | [], key, value => [(key, value)]
  | (k, v) :: rest, key, value =>
    if k = key then (key, value) :: rest else (k, v) :: set rest key value

/-- `Map.prototype.delete`. -/
def delete (m : JsMap κ ν) (key : κ) : JsMap κ ν :=
  m.filter (fun e => decide (e.1 ≠ key))

/-- `Map.prototype.clear`. -/
def clear (_m : JsMap κ ν) : JsMap κ ν :=
  []

end JsMap

/-! ## Players, messages and timers -/

/-- What the tracker reads of `player.account`. -/
structure Account where
  /-- The answer of `account.isRegistered()`. -/
  isRegistered : Bool
  /-- The value of `account.userId`; `none` is `undefined`. -/
  userId : Option Nat
  deriving DecidableEq, Repr

/-- A snapshot of a player object at the time of a call. -/
structure Player where
  /-- The identity of the object: the key under which `Map` and `WeakMap` file it. -/
  ref : Nat
  /-- The value of `player.id`. -/
  id : Nat
  /-- The value of `player.name`. -/
  name : String
  /-- The value of `player.level`. -/
  level : Int
  /-- The player's account. -/
  account : Account
  deriving DecidableEq, Repr

/-- The messages the tracker sends, each with the arguments it is formatted with. -/
inductive Message where
  | LVP_CMD_EXCEPTION_GRANTED (sourceName : String) (sourceId : Nat) (command : String)
  | LVP_CMD_EXCEPTION_REVOKED (sourceName : String) (sourceId : Nat) (command : String)
  | LVP_CMD_EXCEPTION_RESTORED (count : Nat)
  deriving DecidableEq, Repr

/-- The number of milliseconds for which exceptions are cached in case a player reconnects. -/
def ExceptionReconnectTimeoutMs : Nat :=
  5 * 60 * 1000

/-- A pending `wait(ms).then(callback)`: the delay and what the eviction closure captured. -/
structure Timer where
  /-- The argument of `wait`. -/
  delayMs : Nat
  /-- The captured `userId`. -/
  userId : Option Nat
  /-- The captured `token`. -/
  token : Nat
  deriving DecidableEq, Repr

/-! ## The tracker -/

/-- The fields of a `PlaygroundAccessTracker`, followed by the two effect logs. -/
structure PlaygroundAccessTracker where
  /-- Command to the level it was registered with. -/
  commandLevelDefaults_ : JsMap String Int
  /-- Command to its current level. -/
  commandLevels_ : JsMap String Int
  /-- Player object to the set of commands they were granted. -/
  exceptions_ : JsMap Nat (JsSet String)
  /-- User id to the exception set of a session that recently disconnected. -/
  cachedExceptions_ : JsMap (Option Nat) (JsSet String)
  /-- User id to the token of the eviction that may delete the cached set. -/
  cachedExceptionsToken_ : JsMap (Option Nat) Nat
  /-- Player object to the user id they logged in with (a `WeakMap`). -/
  userIds_ : JsMap Nat (Option Nat)
  /-- Every `player.sendMessage` made so far, oldest first: the receiver and the message. -/
  sent : List (Nat × Message)
  /-- Every eviction scheduled so far, oldest first. -/
  timers : List Timer
  deriving DecidableEq, Repr

namespace PlaygroundAccessTracker

/-- The `constructor`: every table is empty. -/
def new : PlaygroundAccessTracker where
  commandLevelDefaults_ := []
  commandLevels_ := []
  exceptions_ := []
  cachedExceptions_ := []
  cachedExceptionsToken_ := []
  userIds_ := []
  sent := []
  timers := []

/-- The getter `commands`: the tracked commands with their current levels. -/
def commands (t : PlaygroundAccessTracker) : List (String × Int) :=
  t.commandLevels_

/-- Whether `player` is allowed to access `command`. `LEVEL_ADMINISTRATOR` is the value of
the constant `Player.LEVEL_ADMINISTRATOR`, which the level of an unknown command falls
back to. -/
def canAccessCommand (LEVEL_ADMINISTRATOR : Int) (t : PlaygroundAccessTracker)
    (command : String) (player : Player) : Bool :=
  let commandLevel :=
    match JsMap.get t.commandLevels_ command with
    | some level => level
    | none => LEVEL_ADMINISTRATOR
  if player.level ≥ commandLevel then
    true
  else
    match JsMap.get t.exceptions_ player.ref with
    | none => false
    | some exceptions => JsSet.has exceptions command

/-- Registers `command`, executable by players of `defaultLevel`. -/
def registerCommand (t : PlaygroundAccessTracker) (command : String) (defaultLevel : Int) :
    PlaygroundAccessTracker :=
  { t with
    commandLevelDefaults_ := JsMap.set t.commandLevelDefaults_ command defaultLevel
    commandLevels_ := JsMap.set t.commandLevels_ command defaultLevel }

/-- Removes `command` from the commands controlled by the tracker. -/
def unregisterCommand (t : PlaygroundAccessTracker) (command : String) :
    PlaygroundAccessTracker :=
  { t with
    commandLevelDefaults_ := JsMap.delete t.commandLevelDefaults_ command
    commandLevels_ := JsMap.delete t.commandLevels_ command
    exceptions_ := t.exceptions_.map (fun e => (e.1, JsSet.delete e.2 command)) }

/-- The level required to execute `command`; throws when it does not exist. -/
def getCommandLevel (t : PlaygroundAccessTracker) (command : String) : Except String Int :=
  match JsMap.get t.commandLevels_ command with
  | none => .error ("Invalid command given: " ++ command)
  | some level => .ok level

/-- The level `command` was registered with; throws when it does not exist. -/
def getDefaultCommandLevel (t : PlaygroundAccessTracker) (command : String) :
    Except String Int :=
  match JsMap.get t.commandLevelDefaults_ command with
  | none => .error ("Invalid command given: " ++ command)
  | some level => .ok level

/-- Sets the level required to execute `command`; exceptions remain. -/
def setCommandLevel (t : PlaygroundAccessTracker) (command : String) (level : Int) :
    Except String PlaygroundAccessTracker :=
  if !JsMap.has t.commandLevels_ command then
    .error ("Invalid command given: " ++ command)
  else
    .ok { t with commandLevels_ := JsMap.set t.commandLevels_ command level }

/-- The message of the error thrown for a player without a registered account. -/
def notRegisteredError (player : Player) : String :=
  "Player " ++ player.name ++ " (Id:" ++ toString player.id ++ ") is not registered."

/-- Adds an exception that allows `player` to use `command`; with a `sourcePlayer`, the
player is told. -/
def addException (t : PlaygroundAccessTracker) (command : String) (player : Player)
    (sourcePlayer : Option Player) : Except String PlaygroundAccessTracker :=
  if !player.account.isRegistered then
    .error (notRegisteredError player)
  else
    let exceptions : JsSet String :=
      match JsMap.get t.exceptions_ player.ref with
      | none => []
      | some exceptions => exceptions
    let t1 := { t with exceptions_ := JsMap.set t.exceptions_ player.ref (JsSet.add exceptions command) }
    match sourcePlayer with
    | some source =>
      .ok { t1 with
            sent := t1.sent ++ [(player.ref, Message.LVP_CMD_EXCEPTION_GRANTED source.name source.id command)] }
    | none => .ok t1

/-- The players for whom an exception has been granted for `command`, in `Map` order. -/
def getExceptions (t : PlaygroundAccessTracker) (command : String) : List Nat :=
  (t.exceptions_.filter (fun e => JsSet.has e.2 command)).map (fun e => e.1)

/-- The number of exceptions that have been granted for `command`. -/
def getExceptionCount (t : PlaygroundAccessTracker) (command : String) : Nat :=
  (t.getExceptions command).length

/-- Whether `player` has an exception allowing them to use `command`. -/
def hasException (t : PlaygroundAccessTracker) (command : String) (player : Player) : Bool :=
  if !player.account.isRegistered then
    false
  else
    match JsMap.get t.exceptions_ player.ref with
    | none => false
    | some exceptions => JsSet.has exceptions command

/-- Removes the exception that allows `player` to use `command`; with a `sourcePlayer`,
the player is told. -/
def removeException (t : PlaygroundAccessTracker) (command : String) (player : Player)
    (sourcePlayer : Option Player) : Except String PlaygroundAccessTracker :=
  if !player.account.isRegistered then
    .error (notRegisteredError player)
  else
    match JsMap.get t.exceptions_ player.ref with
    | none => .ok t
    | some exceptions =>
      let t1 := { t with exceptions_ := JsMap.set t.exceptions_ player.ref (JsSet.delete exceptions command) }
      match sourcePlayer with
      | some source =>
        .ok { t1 with
              sent := t1.sent ++ [(player.ref, Message.LVP_CMD_EXCEPTION_REVOKED source.name source.id command)] }
      | none => .ok t1

/-- Called when `player` has logged in to their account: a cached exception set of their
user id is restored. -/
def onPlayerLogin (t : PlaygroundAccessTracker) (player : Player) : PlaygroundAccessTracker :=
  let userId := player.account.userId
  let t1 := { t with userIds_ := JsMap.set t.userIds_ player.ref userId }
  match JsMap.get t1.cachedExceptions_ userId with
  | none => t1
  | some cachedExceptions =>
    { t1 with
      exceptions_ := JsMap.set t1.exceptions_ player.ref cachedExceptions
      cachedExceptions_ := JsMap.delete t1.cachedExceptions_ userId
      cachedExceptionsToken_ := JsMap.delete t1.cachedExceptionsToken_ userId
      sent := t1.sent ++ [(player.ref, Message.LVP_CMD_EXCEPTION_RESTORED (JsSet.size cachedExceptions))] }

/-- Called when `player` disconnects; `token` is the random token drawn when their
exception set is cached. -/
def onPlayerDisconnect (t : PlaygroundAccessTracker) (player : Player) (token : Nat) :
    PlaygroundAccessTracker :=
  match JsMap.get t.exceptions_ player.ref with
  | none => t
  | some exceptions =>
    let t1 := { t with exceptions_ := JsMap.delete t.exceptions_ player.ref }
    if JsSet.size exceptions = 0 then
      t1
    else
      let userId := (JsMap.get t1.userIds_ player.ref).join
      { t1 with
        userIds_ := JsMap.delete t1.userIds_ player.ref
        cachedExceptions_ := JsMap.set t1.cachedExceptions_ userId exceptions
        cachedExceptionsToken_ := JsMap.set t1.cachedExceptionsToken_ userId token
        timers := t1.timers ++ [Timer.mk ExceptionReconnectTimeoutMs userId token] }

/-- The callback scheduled by `onPlayerDisconnect`, with the `userId` and `token` it
captured: the eviction of a cached exception set. -/
def evict (t : PlaygroundAccessTracker) (userId : Option Nat) (token : Nat) :
    PlaygroundAccessTracker :=
  let readToken := JsMap.get t.cachedExceptionsToken_ userId
  if readToken ≠ some token then
    t
  else
    { t with
      cachedExceptions_ := JsMap.delete t.cachedExceptions_ userId
      cachedExceptionsToken_ := JsMap.delete t.cachedExceptionsToken_ userId }

/-- The method `dispose`. -/
def dispose (t : PlaygroundAccessTracker) : PlaygroundAccessTracker :=
  { t with
    cachedExceptions_ := JsMap.clear t.cachedExceptions_
    commandLevelDefaults_ := JsMap.clear t.commandLevelDefaults_
    commandLevels_ := JsMap.clear t.commandLevels_
    exceptions_ := JsMap.clear t.exceptions_ }

end PlaygroundAccessTracker

/-! ## Histories of calls -/

/-- One call on the tracker, or the firing of one eviction. -/
inductive Op where
  | registerCommand (command : String) (defaultLevel : Int)
  | unregisterCommand (command : String)
  | setCommandLevel (command : String) (level : Int)
  | addException (command : String) (player : Player) (sourcePlayer : Option Player)
  | removeException (command : String) (player : Player) (sourcePlayer : Option Player)
  | onPlayerLogin (player : Player)
  | onPlayerDisconnect (player : Player) (token : Nat)
  | evict (userId : Option Nat) (token : Nat)
  | dispose
  deriving DecidableEq, Repr

namespace PlaygroundAccessTracker

/-- The outcome of one call: the next state, or the error thrown. -/
def step (t : PlaygroundAccessTracker) : Op → Except String PlaygroundAccessTracker
  | .registerCommand command defaultLevel => .ok (t.registerCommand command defaultLevel)
  | .unregisterCommand command => .ok (t.unregisterCommand command)
  | .setCommandLevel command level => t.setCommandLevel command level
  | .addException command player sourcePlayer => t.addException command player sourcePlayer
  | .removeException command player sourcePlayer => t.removeException command player sourcePlayer
  | .onPlayerLogin player => .ok (t.onPlayerLogin player)
  | .onPlayerDisconnect player token => .ok (t.onPlayerDisconnect player token)
  | .evict userId token => .ok (t.evict userId token)
  | .dispose => .ok t.dispose

/-- The state after one call. Every `throw` of the tracker precedes its first write, so a
call that throws leaves the state as it was. -/
def apply (t : PlaygroundAccessTracker) (op : Op) : PlaygroundAccessTracker :=
  match t.step op with
  | .ok t1 => t1
  | .error _ => t

/-- The state after a history of calls, oldest first. -/
def run (t : PlaygroundAccessTracker) : List Op → PlaygroundAccessTracker
  | [] => t
  | op :: ops => run (t.apply op) ops

/-- Whether a history leaves `command` registered when it started out as `registered`:
`registerCommand` registers it, `unregisterCommand` and `dispose` drop it. -/
def registeredAfter (command : String) (registered : Bool) : List Op → Bool
  | [] => registered
  | .registerCommand c _ :: ops =>
    registeredAfter command (if c = command then true else registered) ops
  | .unregisterCommand c :: ops =>
    registeredAfter command (if c = command then false else registered) ops
  | .dispose :: ops => registeredAfter command false ops
  | _ :: ops => registeredAfter command registered ops

/-- Whether no call of a history, run from the state `t`, is a login to the account
`userId` or the disconnect of a player whom `userIds_` files under `userId`. -/
def quietFor (userId : Option Nat) : PlaygroundAccessTracker → List Op → Bool
  | _, [] => true
  | t, op :: ops =>
    (match op with
      | .onPlayerLogin player => decide (player.account.userId ≠ userId)
      | .onPlayerDisconnect player _ =>
        decide ((JsMap.get t.userIds_ player.ref).join ≠ userId)
      | _ => true) &&
    quietFor userId (t.apply op) ops

end PlaygroundAccessTracker

/-! ## Sample players and states -/

/-- A registered player of level 0. -/
def gunther : Player :=
  { ref := 0, id := 0, name := "Gunther", level := 0, account := { isRegistered := true, userId := some 42 } }

/-- A player object of the name `Gunther` whose account is not registered. -/
def guntherAsGuest : Player :=
  { ref := 3, id := 0, name := "Gunther", level := 0, account := { isRegistered := false, userId := none } }

/-- A later session of the account of `gunther`: another player object, the same user id. -/
def guntherAgain : Player :=
  { ref := 1, id := 0, name := "Gunther", level := 0, account := { isRegistered := true, userId := some 42 } }

/-- A registered player of level 2. -/
def russell : Player :=
  { ref := 2, id := 1, name := "Russell", level := 2, account := { isRegistered := true, userId := some 7 } }

/-- A registered player of level 0 with the user id 9. -/
def lucy : Player :=
  { ref := 4, id := 2, name := "Lucy", level := 0, account := { isRegistered := true, userId := some 9 } }

/-- A later session of the account of `lucy`: another player object, the same user id. -/
def lucyAgain : Player :=
  { ref := 5, id := 2, name := "Lucy", level := 0, account := { isRegistered := true, userId := some 9 } }

/-- The tracker in which the command `c` has level 2 and was granted to `gunther`, who
logged in before. -/
def granted : PlaygroundAccessTracker :=
  PlaygroundAccessTracker.new.run
    [.registerCommand "c" 2, .onPlayerLogin gunther, .addException "c" gunther none]

/-! ## The player database of the Nuwani commands

A shallow embedding of `javascript/features/nuwani_commands/player_database.js`.

* `server.database.query(text, ...parameters)` is the environment: a `Database` answers a
  query with a result object or with nothing (`null`). Every method returns, next to its
  result, the queries it issued, oldest first; a rejected promise is an error result.
* Nicknames, field names and the values handed to `updatePlayerField` are strings.
* A JavaScript number is an integer or `NaN` (`JsValue.number none`); `parseInt(_, 10)`
  follows ECMAScript, with the exact integer in place of the nearest double. Both agree on
  every integer the range check of `_updateNumericPlayerField` lets through, and rounding
  to a double does not move a value across either bound of that check.
-/

/-- A value handed to or returned by the database. -/
inductive JsValue where
  | null
  | number (value : Option Int)
  | text (value : String)
  deriving DecidableEq, Repr

/-- One call of `server.database.query`: the text and the parameters. -/
structure Query where
  /-- The SQL text. -/
  text : String
  /-- The values bound to the question marks. -/
  params : List JsValue
  deriving DecidableEq, Repr

/-- What a query resolves to: the rows, each an object, and the affected row count. -/
structure QueryResult where
  /-- The value of `rows`. -/
  rows : List (JsMap String JsValue)
  /-- The value of `affectedRows`. -/
  affectedRows : Nat
  deriving DecidableEq, Repr

/-- The database: the answer to each query, `none` for `null`. -/
abbrev Database := Query → Option QueryResult

/-- The queries a call issued, oldest first, and what it returned or threw. -/
structure Outcome (α : Type) where
  /-- The calls of `server.database.query` made. -/
  queries : List Query
  /-- The value returned, or the message of the error thrown. -/
  result : Except String α

/-- The characters `parseInt` skips at the start: white space and line terminators. -/
def isStrWhiteSpaceChar (c : Char) : Bool :=
  decide (c.toNat ∈ [0x09, 0x0A, 0x0B, 0x0C, 0x0D, 0x20, 0xA0, 0x1680, 0x2028, 0x2029,
    0x202F, 0x205F, 0x3000, 0xFEFF]) || (decide (0x2000 ≤ c.toNat) && decide (c.toNat ≤ 0x200A))

/-- The value of a decimal digit. -/
def digitValue (c : Char) : Nat :=
  c.toNat - 48

/-- Whether a character is a decimal digit. -/
def isDecimalDigit (c : Char) : Bool :=
  decide (48 ≤ c.toNat) && decide (c.toNat ≤ 57)

/-- The built-in `parseInt(value, 10)` on a string: leading white space is skipped, a
sign is read, then the longest run of decimal digits; `none`, for `NaN`, when there is no
digit. -/
def parseInt (value : String) : Option Int :=
  let trimmed := value.toList.dropWhile isStrWhiteSpaceChar
  let negative := trimmed.head? = some '-'
  let unsigned :=
    match trimmed with
    | '-' :: rest => rest
    | '+' :: rest => rest
    | _ => trimmed
  let digits := unsigned.takeWhile isDecimalDigit
  if digits.isEmpty then
    none
  else
    let magnitude : Nat := digits.foldl (fun acc c => acc * 10 + digitValue c) 0
    some (if negative then -(magnitude : Int) else (magnitude : Int))

/-- The number of UTF-16 code units of a string: the `length` of a JavaScript string. -/
def utf16Length (s : String) : Nat :=
  s.toList.foldl (fun n c => n + (if c.toNat ≥ 0x10000 then 2 else 1)) 0

namespace PlayerDatabase

/-- The constant `kTypeNumber`. -/
def kTypeNumber : Nat := 0

/-- The constant `kTypeString`. -/
def kTypeString : Nat := 1

/-- The constant `kTypeCustom`. -/
def kTypeCustom : Nat := 2

/-- One entry of the supported fields: the table of the column and the type of its values. -/
structure Field where
  /-- The table the column is in. -/
  table : String
  /-- One of the `kType` constants. -/
  type : Nat
  deriving DecidableEq, Repr

/-- The fields supported by the commands: the own keys of the object, in order. -/
def getSupportedFields : JsMap String Field :=
  [ ("clock_tz", { table := "users_mutable", type := kTypeNumber }),
    ("clock", { table := "users_mutable", type := kTypeNumber }),
    ("custom_color", { table := "users_mutable", type := kTypeCustom }),
    ("death_count", { table := "users_mutable", type := kTypeNumber }),
    ("death_message", { table := "users_mutable", type := kTypeString }),
    ("is_developer", { table := "users", type := kTypeNumber }),
    ("is_vip", { table := "users", type := kTypeNumber }),
    ("jailed", { table := "users_mutable", type := kTypeNumber }),
    ("kill_count", { table := "users_mutable", type := kTypeNumber }),
    ("last_ip", { table := "users_mutable", type := kTypeCustom }),
    ("last_seen", { table := "users_mutable", type := kTypeCustom }),
    ("level", { table := "users", type := kTypeCustom }),
    ("money_bank_type", { table := "users_mutable", type := kTypeCustom }),
    ("money_bank", { table := "users_mutable", type := kTypeNumber }),
    ("money_bounty", { table := "users_mutable", type := kTypeNumber }),
    ("money_cash", { table := "users_mutable", type := kTypeNumber }),
    ("money_debt", { table := "users_mutable", type := kTypeNumber }),
    ("money_spawn", { table := "users_mutable", type := kTypeNumber }),
    ("online_time", { table := "users_mutable", type := kTypeNumber }),
    ("preferred_radio_channel", { table := "users_mutable", type := kTypeString }),
    ("skin_id", { table := "users_mutable", type := kTypeNumber }),
    ("stats_carbombs", { table := "users_mutable", type := kTypeNumber }),
    ("stats_drivebys", { table := "users_mutable", type := kTypeNumber }),
    ("stats_exports", { table := "users_mutable", type := kTypeNumber }),
    ("stats_fc_deaths", { table := "users_mutable", type := kTypeNumber }),
    ("stats_fc_kills", { table := "users_mutable", type := kTypeNumber }),
    ("stats_heli_kills", { table := "users_mutable", type := kTypeNumber }),
    ("stats_minigame", { table := "users_mutable", type := kTypeNumber }),
    ("stats_packages", { table := "users_mutable", type := kTypeNumber }),
    ("stats_reaction", { table := "users_mutable", type := kTypeNumber }),
    ("validated", { table := "users", type := kTypeNumber }) ]

/-- The text of the query of `_getPlayerFieldQuery` for a column and a table. -/
def getPlayerFieldQueryText (fieldName table : String) : String :=
  "\n            SELECT\n                " ++ fieldName ++
  "\n            FROM\n                " ++ table ++
  "\n            WHERE\n                user_id = (\n                    SELECT" ++
  "\n                        user_id\n                    FROM" ++
  "\n                        users_nicknames\n                    WHERE" ++
  "\n                        nickname = ?)"

/-- The text of the query of `_updatePlayerFieldQuery` for a table and a column. -/
def updatePlayerFieldQueryText (table column : String) : String :=
  "\n            UPDATE\n                " ++ table ++
  "\n            SET\n                " ++ column ++ " = ?" ++
  "\n            WHERE\n                user_id = (\n                    SELECT" ++
  "\n                        user_id\n                    FROM" ++
  "\n                        users_nicknames\n                    WHERE" ++
  "\n                        nickname = ?)\n            LIMIT\n                1"

/-- The message of the error for a player the database does not know. -/
def notFoundError (nickname : String) : String :=
  "The player " ++ nickname ++ " could not be found in the database."

/-- The message of the error for a field that is not supported. -/
def unknownFieldError (fieldName : String) : String :=
  fieldName ++ " is not a field known to me. Please check !supported."

/-- Runs the query that reads the column `fieldName` of `field.table` for `nickname`;
`null` when there is no row or the first row lacks the column. Reading `rows` of a `null`
result is a `TypeError`. -/
def _getPlayerFieldQuery (database : Database) (nickname fieldName : String)
    (field : Field) : Outcome JsValue :=
  let query : Query :=
    { text := getPlayerFieldQueryText fieldName field.table, params := [.text nickname] }
  match database query with
  | none => { queries := [query], result := .error "TypeError" }
  | some result =>
    match result.rows with
    | [] => { queries := [query], result := .ok .null }
    | row :: _ =>
      match JsMap.get row fieldName with
      | none => { queries := [query], result := .ok .null }
      | some value => { queries := [query], result := .ok value }

/-- Gets the field `fieldName` of the data of `nickname`. -/
def getPlayerField (database : Database) (nickname fieldName : String) : Outcome JsValue :=
  let fields := getSupportedFields
  match JsMap.get fields fieldName with
  | none => { queries := [], result := .error (unknownFieldError fieldName) }
  | some field =>
    let queried := _getPlayerFieldQuery database nickname fieldName field
    match queried.result with
    | .error e => { queries := queried.queries, result := .error e }
    | .ok .null => { queries := queried.queries, result := .error (notFoundError nickname) }
    | .ok result => { queries := queried.queries, result := .ok result }

/-- Runs the query that sets `column` of `table` to `value` for `nickname`; answers
`value`. -/
def _updatePlayerFieldQuery (database : Database) (nickname table column : String)
    (value : JsValue) : Outcome JsValue :=
  let query : Query :=
    { text := updatePlayerFieldQueryText table column, params := [value, .text nickname] }
  match database query with
  | none => { queries := [query], result := .error (notFoundError nickname) }
  | some results =>
    if results.affectedRows = 0 then
      { queries := [query], result := .error (notFoundError nickname) }
    else
      { queries := [query], result := .ok value }

/-- Updates one of the custom fields: not implemented. -/
def _updateCustomPlayerField (_database : Database) (_nickname _table _column _value : String) :
    Outcome JsValue :=
  { queries := [], result := .error "Not implemented." }

/-- Updates the numeric `column` of `nickname`. -/
def _updateNumericPlayerField (database : Database) (nickname table column value : String) :
    Outcome JsValue :=
  let numericValue := parseInt value
  let outOfRange :=
    match numericValue with
    | none => false
    | some n => decide (n ≤ -2147483648) || decide (n ≥ 2147483647)
  if outOfRange then
    { queries := [],
      result := .error "Numeric values must be between -2147483647 and 2147483646." }
  else
    _updatePlayerFieldQuery database nickname table column (.number numericValue)

/-- Updates the textual `column` of `nickname`. -/
def _updateStringPlayerField (database : Database) (nickname table column value : String) :
    Outcome JsValue :=
  let stringValue := value
  if utf16Length stringValue ≥ 64 then
    { queries := [],
      result := .error "Textual values must not be longer than 64 characters in length." }
  else
    _updatePlayerFieldQuery database nickname table column (.text value)

/-- Updates the field `fieldName` of `nickname` to `value`, validated by the type of the
field. -/
def updatePlayerField (database : Database) (nickname fieldName value : String) :
    Outcome JsValue :=
  let fields := getSupportedFields
  match JsMap.get fields fieldName with
  | none => { queries := [], result := .error (unknownFieldError fieldName) }
  | some field =>
    if field.type = kTypeNumber then
      _updateNumericPlayerField database nickname field.table fieldName value
    else if field.type = kTypeString then
      _updateStringPlayerField database nickname field.table fieldName value
    else if field.type = kTypeCustom then
      _updateCustomPlayerField database nickname field.table fieldName value
    else
      { queries := [],
        result := .error (fieldName ++ " has an invalid type defined in the code.") }

end PlayerDatabase

/-- A database in which every update touches one row and every read finds no row. -/
def obligingDatabase : Database :=
  fun _ => some { rows := [], affectedRows := 1 }

/-! ## Kinds of calls -/

/-- Whether a call is a `setCommandLevel`, `addException`, `removeException`,
`onPlayerLogin` or `onPlayerDisconnect`, or the firing of an eviction. -/
def Op.isSessionStep : Op → Bool
  | .setCommandLevel _ _ => true
  | .addException _ _ _ => true
  | .removeException _ _ _ => true
  | .onPlayerLogin _ => true
  | .onPlayerDisconnect _ _ => true
  | .evict _ _ => true
  | _ => false

/-- The player a call is made for: the one whose account the call reads. -/
def Op.player : Op → Option Player
  | .addException _ player _ => some player
  | .removeException _ player _ => some player
  | .onPlayerLogin player => some player
  | .onPlayerDisconnect player _ => some player
  | _ => none

/-- Whether the level a call passes to `registerCommand` or `setCommandLevel`, if it is
one of the two, is at least 0. -/
def Op.levelIsNonnegative : Op → Bool
  | .registerCommand _ defaultLevel => decide (0 ≤ defaultLevel)
  | .setCommandLevel _ level => decide (0 ≤ level)
  | _ => true

/-! ## The commands of features: builder, tree and dispatch

The sources hold users of the command builder (`race_commands.js`, `gang_commands.js`)
and one of its tests (`command_builder.test.js`), not the builder, the command manager or
the dispatcher themselves. Those three are modelled from the specification (its sections
3, 4.1, 4.2 and 6); what the specification leaves open is a parameter of the model.
-/

namespace Commands

/-- Modelled from the spec: the types of a parameter. -/
inductive ParameterType where
  | NUMBER
  | IDENTITY_REFERENCE
  | WORD
  | SENTENCE
  deriving DecidableEq, Repr

/-- Modelled from the spec: a parameter: its name, its type, and whether it may be left out. -/
structure ParameterSpec where
  /-- The name shown in the usage. -/
  name : String
  /-- The type the text is checked against. -/
  type : ParameterType
  /-- Whether the parameter is optional. -/
  optional : Bool
  deriving DecidableEq, Repr

/-- Modelled from the spec: a parsed argument. Numbers are integers in this model. -/
inductive Argument where
  | number (value : Int)
  | identity (id : Nat)
  | word (value : String)
  | sentence (value : String)
  deriving DecidableEq, Repr

/-- Modelled from the spec: what a sub-command hangs under: a literal token, or a typed slot with a name. -/
inductive SubKey where
  | literal (token : String)
  | typed (type : ParameterType) (name : String)
  deriving DecidableEq, Repr

/-- Modelled from the spec: the `CommandDescription` of section 3 (the class is not in the
sources): name, prefix, description text, minimum level when one was set, ordered
parameters, handler, and the children keyed by a literal token or by a typed slot. The
handler is a value of the type `η`. -/
inductive CommandDescription (η : Type) where
  | mk (commandName : String) (prefixText : String) (description : Option String)
      (level : Option Int) (parameters : List ParameterSpec) (listener : η)
      (subs : List (SubKey × CommandDescription η))

namespace CommandDescription

variable {η : Type}

/-- Modelled from the spec: the name of the command, without its prefix. -/
def commandName : CommandDescription η → String
  | .mk name _ _ _ _ _ _ => name

/-- Modelled from the spec: the prefix of the command. -/
def prefixText : CommandDescription η → String
  | .mk _ p _ _ _ _ _ => p

/-- Modelled from the spec: the command as typed: the prefix followed by the name. -/
def command (d : CommandDescription η) : String :=
  d.prefixText ++ d.commandName

/-- Modelled from the spec: the description text, when one was given. -/
def description : CommandDescription η → Option String
  | .mk _ _ text _ _ _ _ => text

/-- Modelled from the spec: the minimum level, when one was set with `restrict`. -/
def level : CommandDescription η → Option Int
  | .mk _ _ _ l _ _ _ => l

/-- Modelled from the spec: the parameters, in order. -/
def parameters : CommandDescription η → List ParameterSpec
  | .mk _ _ _ _ ps _ _ => ps

/-- Modelled from the spec: the handler. -/
def listener : CommandDescription η → η
  | .mk _ _ _ _ _ handler _ => handler

/-- Modelled from the spec: the sub-commands, in the order they were built. -/
def subs : CommandDescription η → List (SubKey × CommandDescription η)
  | .mk _ _ _ _ _ _ children => children

end CommandDescription

/-- Modelled from the spec: a node under construction: everything of a description but its handler, and the key
it will hang under in its parent (`none` for the command itself). -/
structure Frame (η : Type) where
  /-- The key in the parent. -/
  key : Option SubKey
  /-- The name: of the command, or the token or slot name of a sub-command. -/
  name : String
  /-- The prefix. -/
  prefixText : String
  /-- The text given with `description`. -/
  description : Option String
  /-- The level given with `restrict`. -/
  level : Option Int
  /-- The parameters given with `parameters`. -/
  parameters : List ParameterSpec
  /-- The sub-commands built so far. -/
  subs : List (SubKey × CommandDescription η)

/-- Modelled from the spec: the `CommandBuilder` of section 6 (the class is not in the
sources; `command_builder.test.js` constructs it from a listener, a name and a prefix).
`frames` holds the node being built first and its ancestors after it; `delivered` is what
the listener of the builder has received. -/
structure CommandBuilder (η : Type) where
  /-- The nodes under construction, innermost first. -/
  frames : List (Frame η)
  /-- The description handed to the listener by the outermost `build`. -/
  delivered : Option (CommandDescription η)

namespace CommandBuilder

variable {η : Type}

/-- Modelled from the spec: the name of a sub-command: its literal token or the name of its slot. -/
def keyName : SubKey → String
  | .literal token => token
  | .typed _ name => name

/-- Modelled from the spec: changes the node being built. -/
def update (b : CommandBuilder η) (f : Frame η → Frame η) : CommandBuilder η :=
  match b.frames with
  | [] => b
  | frame :: parents => { b with frames := f frame :: parents }

/-- Modelled from the spec: a builder for the command `name` with the given prefix. -/
def new (name prefixText : String) : CommandBuilder η :=
  { frames := [{ key := none, name := name, prefixText := prefixText, description := none,
                 level := none, parameters := [], subs := [] }],
    delivered := none }

/-- Modelled from the spec: the call `description(text)`. -/
def description (b : CommandBuilder η) (text : String) : CommandBuilder η :=
  b.update (fun frame => { frame with description := some text })

/-- Modelled from the spec: the call `restrict(level)`. -/
def restrict (b : CommandBuilder η) (level : Int) : CommandBuilder η :=
  b.update (fun frame => { frame with level := some level })

/-- Modelled from the spec: the call `parameters([...])`. -/
def parameters (b : CommandBuilder η) (specs : List ParameterSpec) : CommandBuilder η :=
  b.update (fun frame => { frame with parameters := specs })

/-- Modelled from the spec: the call `sub(literal)` or `sub(type, name)`: a nested builder. -/
def sub (b : CommandBuilder η) (key : SubKey) : CommandBuilder η :=
  match b.frames with
  | [] => b
  | frame :: parents =>
    { b with
      frames :=
        { key := some key, name := keyName key, prefixText := frame.prefixText,
          description := none, level := none, parameters := [], subs := [] }
          :: frame :: parents }

/-- Modelled from the spec: the call `build(listener)`: the node being built is finished; a sub-command is added
to its parent, whose builder is returned, and the command itself is handed to the
listener of the builder. -/
def build (b : CommandBuilder η) (listener : η) : CommandBuilder η :=
  match b.frames with
  | [] => b
  | frame :: parents =>
    let built : CommandDescription η :=
      .mk frame.name frame.prefixText frame.description frame.level frame.parameters
        listener frame.subs
    match frame.key, parents with
    | some key, parent :: ancestors =>
      { b with frames := { parent with subs := parent.subs ++ [(key, built)] } :: ancestors }
    | _, _ => { frames := [], delivered := some built }

end CommandBuilder

/-- Modelled from the spec: one token of a text with the text from its first character on. -/
abbrev Token := String × String

/-- Modelled from the spec: the white-space-delimited tokens of a text, each with the raw text that starts at it. -/
def tokensOf : List Char → List (List Char × List Char)
  | [] => []
  | c :: cs =>
    if c.isWhitespace then
      tokensOf cs
    else
      match cs, tokensOf cs with
      | d :: _, (token, raw) :: more =>
        if d.isWhitespace then ([c], c :: cs) :: (token, raw) :: more
        else (c :: token, c :: raw) :: more
      | _, rest => ([c], c :: cs) :: rest

/-- Modelled from the spec: a whole token read as a number: an optional sign and decimal digits, nothing else. -/
def parseNumber (token : List Char) : Option Int :=
  let negative := token.head? = some '-'
  let digits :=
    match token with
    | '-' :: rest => rest
    | '+' :: rest => rest
    | _ => token
  if digits.isEmpty || !digits.all isDecimalDigit then
    none
  else
    let magnitude : Nat := digits.foldl (fun acc c => acc * 10 + digitValue c) 0
    some (if negative then -(magnitude : Int) else (magnitude : Int))

/-- Modelled from the spec: one token checked against a type that takes one token; `resolveIdentity` resolves an
identity reference against the live population. -/
def parseToken (resolveIdentity : String → Option Nat) (type : ParameterType)
    (token : List Char) : Option Argument :=
  match type with
  | .NUMBER => (parseNumber token).map .number
  | .IDENTITY_REFERENCE => (resolveIdentity (String.mk token)).map .identity
  | .WORD => some (.word (String.mk token))
  | .SENTENCE => none

/-- Modelled from the spec: the outcome of a dispatch. -/
inductive Dispatched (η : Type) where
  /-- The text does not name a command. -/
  | notACommand
  /-- A node reached during the walk denied access. -/
  | denied
  /-- The text does not fit the node reached: the usage of that node is sent. -/
  | usage (commandName : String) (parameters : List ParameterSpec)
  /-- The handler is invoked with the caller and these arguments. -/
  | invoked (listener : η) (arguments : List Argument)
  deriving DecidableEq, Repr

/-- Modelled from the spec: the `handled` result of `dispatch`. -/
def Dispatched.handled {η : Type} : Dispatched η → Bool
  | .notACommand => false
  | _ => true

/-- Modelled from the spec: the child of a node under the literal `token`. -/
def findLiteral {η : Type} :
    List (SubKey × CommandDescription η) → String → Option (CommandDescription η)
  | [], _ => none
  | (.literal t, child) :: rest, token => if t = token then some child else findLiteral rest token
  | (.typed _ _, _) :: rest, token => findLiteral rest token

/-- Modelled from the spec: the typed slot of a node. -/
def findTyped {η : Type} :
    List (SubKey × CommandDescription η) → Option (ParameterType × CommandDescription η)
  | [] => none
  | (.typed type _, child) :: _ => some (type, child)
  | (.literal _, _) :: rest => findTyped rest

/-- Modelled from the spec: the parameters of a node read from the tokens left over. A sentence takes all the raw
text left; a missing required parameter or a token that does not parse fails; tokens
left over after the last parameter fail when `strict` is set and are ignored otherwise
(the specification leaves that policy open). -/
def parseParameters (resolveIdentity : String → Option Nat) (strict : Bool) :
    List ParameterSpec → List (List Char × List Char) → Option (List Argument)
  | [], [] => some []
  | [], _ :: _ => if strict then none else some []
  | spec :: specs, [] =>
    if spec.optional then parseParameters resolveIdentity strict specs [] else none
  | spec :: specs, (token, raw) :: rest =>
    match spec.type with
    | .SENTENCE => some [.sentence (String.mk raw)]
    | type =>
      match parseToken resolveIdentity type token with
      | none => none
      | some argument =>
        (parseParameters resolveIdentity strict specs rest).map (fun more => argument :: more)

/-- Modelled from the spec: the end of a walk at `node` with the tokens left over. -/
def finish {η : Type} (resolveIdentity : String → Option Nat) (strict : Bool)
    (node : CommandDescription η) (left : List (List Char × List Char))
    (arguments : List Argument) : Dispatched η :=
  match parseParameters resolveIdentity strict node.parameters left with
  | none => .usage node.commandName node.parameters
  | some more => .invoked node.listener (arguments ++ more)

/-- Modelled from the spec: the matching of section 4.1 with the access check of section
4.2 (the dispatcher is not in the sources). Each node reached is checked with `canAccess`
first; a token that is the literal of a child leads to that child, otherwise a token that
parses for the typed slot leads to the slot with the parsed value as an argument;
otherwise the walk ends at the node. -/
def walk {η : Type} (canAccess : CommandDescription η → Bool)
    (resolveIdentity : String → Option Nat) (strict : Bool) :
    List (List Char × List Char) → CommandDescription η → List Argument → Dispatched η
  | [], node, arguments =>
    if !canAccess node then .denied else finish resolveIdentity strict node [] arguments
  | (token, raw) :: rest, node, arguments =>
    if !canAccess node then
      .denied
    else
      match findLiteral node.subs (String.mk token) with
      | some child => walk canAccess resolveIdentity strict rest child arguments
      | none =>
        match findTyped node.subs with
        | none => finish resolveIdentity strict node ((token, raw) :: rest) arguments
        | some (.SENTENCE, child) =>
          if !canAccess child then .denied
          else finish resolveIdentity strict child [] (arguments ++ [.sentence (String.mk raw)])
        | some (type, child) =>
          match parseToken resolveIdentity type token with
          | none => finish resolveIdentity strict node ((token, raw) :: rest) arguments
          | some argument =>
            walk canAccess resolveIdentity strict rest child (arguments ++ [argument])

/-- Modelled from the spec: the registered command whose prefix and name make up the first token. -/
def findCommand {η : Type} :
    List (CommandDescription η) → String → Option (CommandDescription η)
  | [], _ => none
  | d :: rest, first => if d.command = first then some d else findCommand rest first

/-- Modelled from the spec: `dispatch(caller, rawText)` of section 4.2 (the dispatcher is
not in the sources). The first token names the command, prefix included; a text that
names no registered command is not handled. -/
def dispatch {η : Type} (commands : List (CommandDescription η))
    (canAccess : CommandDescription η → Bool) (resolveIdentity : String → Option Nat)
    (strict : Bool) (rawText : String) : Dispatched η :=
  match tokensOf rawText.toList with
  | [] => .notACommand
  | (first, _) :: rest =>
    match findCommand commands (String.mk first) with
    | none => .notACommand
    | some d => walk canAccess resolveIdentity strict rest d []

/-- Modelled from the spec: the command manager that `server.commandManager` names (the
class is not in the sources): the commands registered, oldest first. -/
structure CommandManager (η : Type) where
  /-- The registered commands. -/
  commands : List (CommandDescription η)

namespace CommandManager

variable {η : Type}

/-- Modelled from the spec: the call `buildCommand(name)`: a builder for `/name`. -/
def buildCommand (_m : CommandManager η) (name : String) : CommandBuilder η :=
  CommandBuilder.new name "/"

/-- Modelled from the spec: what the listener of a builder of the manager does with a description: register it. -/
def register (m : CommandManager η) (b : CommandBuilder η) : CommandManager η :=
  match b.delivered with
  | none => m
  | some d => { commands := m.commands ++ [d] }

/-- Modelled from the spec: the call `removeCommand(name)`: the command of that name is no longer registered. -/
def removeCommand (m : CommandManager η) (name : String) : CommandManager η :=
  { commands := m.commands.filter (fun d => decide (d.commandName ≠ name)) }

/-- Modelled from the spec: whether a command of that name is registered. -/
def hasCommand (m : CommandManager η) (name : String) : Bool :=
  m.commands.any (fun d => decide (d.commandName = name))

end CommandManager

end Commands

/-! ## The race commands -/

/-- The handlers of `RaceCommands`. -/
inductive RaceListener where
  | raceStart
  | raceOverview
  deriving DecidableEq, Repr

namespace RaceCommands

open Commands

/-- The `constructor`: the command `/race` with a number-typed sub-command `id`. -/
def constructor (commandManager : CommandManager RaceListener) : CommandManager RaceListener :=
  commandManager.register
    (((((commandManager.buildCommand "race")
      |>.description "Compete in one of the server's races.")
      |>.sub (.typed .NUMBER "id"))
        |>.description "Compete in one of the server's races."
        |>.build .raceStart)
      |>.build .raceOverview)

/-- The method `dispose`. -/
def dispose (commandManager : CommandManager RaceListener) : CommandManager RaceListener :=
  commandManager.removeCommand "race"

end RaceCommands

/-! ## The gang commands -/

/-- The handlers of `GangCommands`. -/
inductive GangListener where
  | onGangCreateCommand
  | onGangLeaveCommand
  | onGangCommand
  | onGangsTopCommand
  | onGangsCommand
  deriving DecidableEq, Repr

/-- What `onGangsCommand` reads of a gang when it sorts. -/
structure Gang where
  /-- The value of `gang.name`. -/
  name : String
  /-- The value of `gang.memberCount`. -/
  memberCount : Nat
  deriving DecidableEq, Repr

namespace GangCommands

open Commands

/-- The `constructor`: the commands `/pgang [create/leave]` and `/pgangs [top]`.
`LEVEL_ADMINISTRATOR` is the value of the constant `Player.LEVEL_ADMINISTRATOR`. -/
def constructor (LEVEL_ADMINISTRATOR : Int) (commandManager : CommandManager GangListener) :
    CommandManager GangListener :=
  let withGang := commandManager.register
    (((((commandManager.buildCommand "pgang")
      |>.restrict LEVEL_ADMINISTRATOR)
      |>.sub (.literal "create"))
        |>.build .onGangCreateCommand
      |>.sub (.literal "leave"))
        |>.build .onGangLeaveCommand
      |>.build .onGangCommand)
  withGang.register
    ((((withGang.buildCommand "pgangs")
      |>.restrict LEVEL_ADMINISTRATOR)
      |>.sub (.literal "top"))
        |>.build .onGangsTopCommand
      |>.build .onGangsCommand)

/-- The function handed to `gangs.sort` by `onGangsCommand`. `localeCompare` is the
built-in comparison of two names. A positive answer sorts `lhs` after `rhs`, a negative
one before it. -/
def gangsComparator (localeCompare : String → String → Int) (lhs rhs : Gang) : Int :=
  if lhs.memberCount > rhs.memberCount then
    1
  else
    localeCompare lhs.name rhs.name

/-- The method `dispose`. -/
def dispose (commandManager : CommandManager GangListener) : CommandManager GangListener :=
  commandManager.removeCommand "pgangs"

end GangCommands

/-! ## The database salt -/

namespace PlayerDatabase

/-- Generates a new database salt from `random`, the value of `Math.random()`. `fl` is
the rounding of the product to a double; the floor and the sum are exact. -/
def generateDatabaseSalt (fl : ℚ → ℚ) (random : ℚ) : Int :=
  ⌊fl (random * (999999999 - 100000000))⌋ + 100000000

end PlayerDatabase

/-- A string of 64 characters. -/
def sixtyFourLetters : String :=
  String.mk (List.replicate 64 'a')

/-! ## Facts about `JsSet` and `JsMap` -/

namespace JsSet

variable {α : Type} [DecidableEq α]

theorem has_add_self (s : JsSet α) (a : α) : has (add s a) a = true := by
  unfold has add
  split <;> simp [*]

theorem has_add_other (s : JsSet α) {a b : α} (h : b ≠ a) : has (add s a) b = has s b := by
  unfold has add
  split <;> simp [h]

theorem has_delete_self (s : JsSet α) (a : α) : has (delete s a) a = false := by
  simp [has, delete]

theorem has_delete_other (s : JsSet α) {a b : α} (h : b ≠ a) :
    has (delete s a) b = has s b := by
  simp [has, delete, h]

end JsSet

namespace JsMap

variable {κ ν : Type} [DecidableEq κ]

theorem get_set_self (m : JsMap κ ν) (k : κ) (v : ν) : get (set m k v) k = some v := by
  induction m with
  | nil => simp [set, get]
  | cons e rest ih =>
    obtain ⟨k1, v1⟩ := e
    by_cases h : k1 = k <;> simp [set, get, h, ih]

theorem get_set_other (m : JsMap κ ν) {k j : κ} (v : ν) (h : k ≠ j) :
    get (set m k v) j = get m j := by
  induction m with
  | nil => simp [set, get, h]
  | cons e rest ih =>
    obtain ⟨k1, v1⟩ := e
    by_cases h1 : k1 = k
    · subst h1
      simp [set, get, h]
    · by_cases h2 : k1 = j
      · subst h2
        simp [set, get, Ne.symm h]
      · simp [set, get, h1, h2, ih]

theorem get_delete_self (m : JsMap κ ν) (k : κ) : get (delete m k) k = none := by
  induction m with
  | nil => simp [delete, get]
  | cons e rest ih =>
    obtain ⟨k1, v1⟩ := e
    by_cases h : k1 = k
    · simpa [delete, h] using ih
    · simpa [delete, List.filter_cons, h, get] using ih

theorem get_delete_other (m : JsMap κ ν) {k j : κ} (h : k ≠ j) :
    get (delete m k) j = get m j := by
  induction m with
  | nil => simp [delete, get]
  | cons e rest ih =>
    obtain ⟨k1, v1⟩ := e
    by_cases h1 : k1 = k
    · subst h1
      simpa [delete, get, h] using ih
    · by_cases h2 : k1 = j
      · subst h2
        simp [delete, List.filter_cons, Ne.symm h, get]
      · simpa [delete, List.filter_cons, h1, get, h2] using ih

theorem get_map_values (m : JsMap κ ν) (f : ν → ν) (k : κ) :
    get (m.map (fun e => (e.1, f e.2))) k = (get m k).map f := by
  induction m with
  | nil => simp [get]
  | cons e rest ih =>
    obtain ⟨k1, v1⟩ := e
    by_cases h : k1 = k <;> simp [get, h, ih]

theorem has_eq_true_iff (m : JsMap κ ν) (k : κ) : has m k = true ↔ ∃ v, get m k = some v := by
  simp [has, Option.isSome_iff_exists]

end JsMap

/-! ## The access decision -/

namespace PlaygroundAccessTracker

theorem getCommandLevel_eq_ok {t : PlaygroundAccessTracker} {command : String} {level : Int} :
    t.getCommandLevel command = .ok level ↔ JsMap.get t.commandLevels_ command = some level := by
  unfold getCommandLevel
  cases JsMap.get t.commandLevels_ command <;> simp

theorem canAccessCommand_of_level (A : Int) {t : PlaygroundAccessTracker} {command : String}
    {level : Int} (player : Player) (h : JsMap.get t.commandLevels_ command = some level) :
    canAccessCommand A t command player = true ↔
      (player.level ≥ level ∨
        ∃ exceptions, JsMap.get t.exceptions_ player.ref = some exceptions ∧
          JsSet.has exceptions command = true) := by
  unfold canAccessCommand
  simp only [h]
  by_cases hl : player.level ≥ level
  · simp [hl]
  · cases he : JsMap.get t.exceptions_ player.ref <;> simp [hl]

theorem hasException_of_registered {t : PlaygroundAccessTracker} (command : String)
    {player : Player} (h : player.account.isRegistered = true) :
    t.hasException command player = true ↔
      ∃ exceptions, JsMap.get t.exceptions_ player.ref = some exceptions ∧
        JsSet.has exceptions command = true := by
  unfold hasException
  cases he : JsMap.get t.exceptions_ player.ref <;> simp [h]

/-- For a registered command of current level `level`, `canAccessCommand` answers true
exactly when `player.level >= level` or the live exception set of the player holds the
command; for a player whose account is registered this is `player.level >= level` or
`hasException(command, player)`. Right after `registerCommand(command, defaultLevel)` a
player below `defaultLevel` whose exception set does not hold the command is denied, and
a player at or above it is allowed. -/
theorem canAccessCommand_iff_live_set (LEVEL_ADMINISTRATOR : Int) (t : PlaygroundAccessTracker)
    (command : String) (player : Player) :
    (∀ level : Int, t.getCommandLevel command = .ok level →
      (canAccessCommand LEVEL_ADMINISTRATOR t command player = true ↔
        (player.level ≥ level ∨
          ∃ exceptions, JsMap.get t.exceptions_ player.ref = some exceptions ∧
            JsSet.has exceptions command = true)) ∧
      (player.account.isRegistered = true →
        (canAccessCommand LEVEL_ADMINISTRATOR t command player = true ↔
          (player.level ≥ level ∨ t.hasException command player = true)))) ∧
    (∀ defaultLevel : Int,
      (player.level < defaultLevel →
        (∀ exceptions,
          JsMap.get (t.registerCommand command defaultLevel).exceptions_ player.ref
              = some exceptions →
            JsSet.has exceptions command = false) →
        canAccessCommand LEVEL_ADMINISTRATOR (t.registerCommand command defaultLevel)
          command player = false) ∧
      (player.level ≥ defaultLevel →
        canAccessCommand LEVEL_ADMINISTRATOR (t.registerCommand command defaultLevel)
          command player = true)) := by
  refine ⟨fun level hlevel => ?_, fun defaultLevel => ?_⟩
  · have h := getCommandLevel_eq_ok.mp hlevel
    refine ⟨canAccessCommand_of_level _ player h, fun hreg => ?_⟩
    rw [canAccessCommand_of_level _ player h, hasException_of_registered command hreg]
  · have h : JsMap.get (t.registerCommand command defaultLevel).commandLevels_ command
        = some defaultLevel := JsMap.get_set_self _ _ _
    have hiff := canAccessCommand_of_level LEVEL_ADMINISTRATOR player h
    constructor
    · intro hlt hnone
      cases hc : canAccessCommand LEVEL_ADMINISTRATOR (t.registerCommand command defaultLevel)
          command player with
      | false => rfl
      | true =>
        rcases hiff.mp hc with hge | ⟨exceptions, hget, hhas⟩
        · omega
        · rw [hnone exceptions hget] at hhas
          cases hhas
    · intro hge
      exact hiff.mpr (Or.inl hge)

end PlaygroundAccessTracker

/-! ## Granting and revoking -/

namespace PlaygroundAccessTracker

theorem addException_ok {t : PlaygroundAccessTracker} (command : String) {player : Player}
    (sourcePlayer : Option Player) (h : player.account.isRegistered = true) :
    ∃ t1, t.addException command player sourcePlayer = .ok t1 ∧
      t1.commandLevels_ = t.commandLevels_ ∧
      t1.exceptions_ = JsMap.set t.exceptions_ player.ref
        (JsSet.add ((JsMap.get t.exceptions_ player.ref).getD []) command) := by
  unfold addException
  cases sourcePlayer <;> cases he : JsMap.get t.exceptions_ player.ref <;> simp [h]

theorem removeException_ok {t : PlaygroundAccessTracker} (command : String) {player : Player}
    (sourcePlayer : Option Player) (h : player.account.isRegistered = true) :
    ∃ t1, t.removeException command player sourcePlayer = .ok t1 ∧
      t1.commandLevels_ = t.commandLevels_ ∧
      t1.exceptions_ =
        match JsMap.get t.exceptions_ player.ref with
        | none => t.exceptions_
        | some exceptions =>
          JsMap.set t.exceptions_ player.ref (JsSet.delete exceptions command) := by
  unfold removeException
  cases sourcePlayer <;> cases he : JsMap.get t.exceptions_ player.ref <;> simp [h]

theorem addException_frame {t t1 : PlaygroundAccessTracker} {command : String}
    {player : Player} {sourcePlayer : Option Player}
    (h : t.addException command player sourcePlayer = .ok t1) :
    t1.commandLevels_ = t.commandLevels_ ∧
      t1.commandLevelDefaults_ = t.commandLevelDefaults_ ∧
      t1.cachedExceptions_ = t.cachedExceptions_ ∧
      t1.cachedExceptionsToken_ = t.cachedExceptionsToken_ ∧
      t1.userIds_ = t.userIds_ ∧
      t1.timers = t.timers := by
  unfold addException at h
  split at h
  · cases h
  · cases sourcePlayer <;> simp at h <;> subst h <;> exact ⟨rfl, rfl, rfl, rfl, rfl, rfl⟩

theorem removeException_frame {t t1 : PlaygroundAccessTracker} {command : String}
    {player : Player} {sourcePlayer : Option Player}
    (h : t.removeException command player sourcePlayer = .ok t1) :
    t1.commandLevels_ = t.commandLevels_ ∧
      t1.commandLevelDefaults_ = t.commandLevelDefaults_ ∧
      t1.cachedExceptions_ = t.cachedExceptions_ ∧
      t1.cachedExceptionsToken_ = t.cachedExceptionsToken_ ∧
      t1.userIds_ = t.userIds_ ∧
      t1.timers = t.timers := by
  unfold removeException at h
  split at h
  · cases h
  · cases he : JsMap.get t.exceptions_ player.ref <;> cases sourcePlayer <;>
      simp [he] at h <;> subst h <;> exact ⟨rfl, rfl, rfl, rfl, rfl, rfl⟩

/-- C2, as amended: for a registered command of current level `level` and a registered
player who does not already hold an exception for it while being below `level`, the answer
of `canAccessCommand` after `addException` followed by `removeException` is the answer it
gave before the grant. -/
theorem canAccessCommand_addException_removeException (LEVEL_ADMINISTRATOR : Int)
    (t : PlaygroundAccessTracker) (command : String) (player : Player)
    (grantedBy revokedBy : Option Player) (level : Int)
    (hlevel : t.getCommandLevel command = .ok level)
    (hreg : player.account.isRegistered = true)
    (hnew : ¬ (t.hasException command player = true ∧ player.level < level)) :
    ∃ t1 t2, t.addException command player grantedBy = .ok t1 ∧
      t1.removeException command player revokedBy = .ok t2 ∧
      canAccessCommand LEVEL_ADMINISTRATOR t2 command player
        = canAccessCommand LEVEL_ADMINISTRATOR t command player := by
  obtain ⟨t1, h1, hl1, he1⟩ := addException_ok (t := t) command grantedBy hreg
  obtain ⟨t2, h2, hl2, he2⟩ := removeException_ok (t := t1) command revokedBy hreg
  refine ⟨t1, t2, h1, h2, ?_⟩
  have hl := getCommandLevel_eq_ok.mp hlevel
  have hget1 : JsMap.get t1.exceptions_ player.ref
      = some (JsSet.add ((JsMap.get t.exceptions_ player.ref).getD []) command) := by
    rw [he1]
    exact JsMap.get_set_self _ _ _
  rw [hget1] at he2
  have hget2 : ∀ e, JsMap.get t2.exceptions_ player.ref = some e →
      JsSet.has e command = false := by
    intro e hsome
    rw [he2, JsMap.get_set_self] at hsome
    cases hsome
    exact JsSet.has_delete_self _ _
  have hl2t : JsMap.get t2.commandLevels_ command = some level := by
    rw [hl2, hl1]
    exact hl
  rw [Bool.eq_iff_iff, canAccessCommand_of_level _ player hl2t,
    canAccessCommand_of_level _ player hl]
  constructor
  · rintro (hge | ⟨e, hsome, hhas⟩)
    · exact Or.inl hge
    · rw [hget2 e hsome] at hhas
      cases hhas
  · rintro (hge | hex)
    · exact Or.inl hge
    · have hhas : t.hasException command player = true :=
        (hasException_of_registered command hreg).mpr hex
      by_cases hlt : player.level < level
      · exact absurd ⟨hhas, hlt⟩ hnew
      · exact Or.inl (by omega)

/-- An instance of `canAccessCommand_addException_removeException`: `russell` is granted
and then denied `c` in the tracker `granted`. -/
theorem canAccessCommand_addException_removeException_witness :
    granted.getCommandLevel "c" = .ok 2 ∧
    russell.account.isRegistered = true ∧
    ¬ (granted.hasException "c" russell = true ∧ russell.level < 2) ∧
    ∃ t1 t2, granted.addException "c" russell (some gunther) = .ok t1 ∧
      t1.removeException "c" russell none = .ok t2 ∧
      canAccessCommand 1 t2 "c" russell = canAccessCommand 1 granted "c" russell :=
  ⟨rfl, rfl, by decide,
    canAccessCommand_addException_removeException 1 granted "c" russell (some gunther) none 2
      rfl rfl (by decide)⟩

/-- C2, as stated, fails: `gunther` (level 0) already holds an exception for `c` (level 2)
in `granted`, so he may use it; granting it again and then revoking it leaves him without
the exception, and he may no longer use it. -/
theorem canAccessCommand_addException_removeException_changes :
    granted.getCommandLevel "c" = .ok 2 ∧
    gunther.account.isRegistered = true ∧
    canAccessCommand 1 granted "c" gunther = true ∧
    ∃ t1 t2, granted.addException "c" gunther none = .ok t1 ∧
      t1.removeException "c" gunther none = .ok t2 ∧
      canAccessCommand 1 t2 "c" gunther = false :=
  ⟨rfl, rfl, by decide, _, _, rfl, rfl, by decide⟩

end PlaygroundAccessTracker

/-! ## The reconnect cache -/

namespace PlaygroundAccessTracker

theorem onPlayerLogin_userIds (t : PlaygroundAccessTracker) (player : Player) :
    JsMap.get (t.onPlayerLogin player).userIds_ player.ref = some player.account.userId := by
  unfold onPlayerLogin
  cases hc : JsMap.get t.cachedExceptions_ player.account.userId <;>
    simp [hc, JsMap.get_set_self]

theorem onPlayerDisconnect_of_held {t : PlaygroundAccessTracker} {player : Player}
    {exceptions : JsSet String} (token : Nat)
    (hheld : JsMap.get t.exceptions_ player.ref = some exceptions)
    (hsize : JsSet.size exceptions ≠ 0) :
    t.onPlayerDisconnect player token =
      { t with
        exceptions_ := JsMap.delete t.exceptions_ player.ref
        userIds_ := JsMap.delete t.userIds_ player.ref
        cachedExceptions_ :=
          JsMap.set t.cachedExceptions_ (JsMap.get t.userIds_ player.ref).join exceptions
        cachedExceptionsToken_ :=
          JsMap.set t.cachedExceptionsToken_ (JsMap.get t.userIds_ player.ref).join token
        timers := t.timers ++
          [Timer.mk ExceptionReconnectTimeoutMs (JsMap.get t.userIds_ player.ref).join token] } := by
  unfold onPlayerDisconnect
  simp [hheld, hsize]

theorem onPlayerLogin_of_cached {t : PlaygroundAccessTracker} {player : Player}
    {cached : JsSet String}
    (hcached : JsMap.get t.cachedExceptions_ player.account.userId = some cached) :
    t.onPlayerLogin player =
      { t with
        userIds_ := JsMap.set t.userIds_ player.ref player.account.userId
        exceptions_ := JsMap.set t.exceptions_ player.ref cached
        cachedExceptions_ := JsMap.delete t.cachedExceptions_ player.account.userId
        cachedExceptionsToken_ := JsMap.delete t.cachedExceptionsToken_ player.account.userId
        sent := t.sent ++
          [(player.ref, Message.LVP_CMD_EXCEPTION_RESTORED (JsSet.size cached))] } := by
  unfold onPlayerLogin
  simp [hcached]

theorem onPlayerLogin_of_not_cached {t : PlaygroundAccessTracker} {player : Player}
    (hcached : JsMap.get t.cachedExceptions_ player.account.userId = none) :
    t.onPlayerLogin player =
      { t with userIds_ := JsMap.set t.userIds_ player.ref player.account.userId } := by
  unfold onPlayerLogin
  simp [hcached]

theorem evict_of_ne {t : PlaygroundAccessTracker} {userId : Option Nat} {token : Nat}
    (h : JsMap.get t.cachedExceptionsToken_ userId ≠ some token) :
    t.evict userId token = t := by
  unfold evict
  simp [h]

theorem evict_of_eq {t : PlaygroundAccessTracker} {userId : Option Nat} {token : Nat}
    (h : JsMap.get t.cachedExceptionsToken_ userId = some token) :
    t.evict userId token =
      { t with
        cachedExceptions_ := JsMap.delete t.cachedExceptions_ userId
        cachedExceptionsToken_ := JsMap.delete t.cachedExceptionsToken_ userId } := by
  unfold evict
  simp [h]

theorem hasException_congr {t1 t2 : PlaygroundAccessTracker} {p1 p2 : Player}
    (command : String) (hreg : p1.account.isRegistered = p2.account.isRegistered)
    (hget : JsMap.get t1.exceptions_ p1.ref = JsMap.get t2.exceptions_ p2.ref) :
    t1.hasException command p1 = t2.hasException command p2 := by
  unfold hasException
  rw [hreg, hget]

/-- A session that logs in right after the disconnect of a session of the same user id
holds the set the first one held. -/
theorem restored_after_reconnect {t : PlaygroundAccessTracker} {player newPlayer : Player}
    (token : Nat) {userId : Option Nat} {exceptions : JsSet String}
    (hlogin : JsMap.get t.userIds_ player.ref = some userId)
    (hheld : JsMap.get t.exceptions_ player.ref = some exceptions)
    (hsize : JsSet.size exceptions ≠ 0)
    (hsame : newPlayer.account.userId = userId) :
    JsMap.get ((t.onPlayerDisconnect player token).onPlayerLogin newPlayer).exceptions_
      newPlayer.ref = some exceptions := by
  have hd := onPlayerDisconnect_of_held token hheld hsize
  have hcached : JsMap.get (t.onPlayerDisconnect player token).cachedExceptions_
      newPlayer.account.userId = some exceptions := by
    rw [hd, hsame, hlogin]
    exact JsMap.get_set_self _ _ _
  rw [onPlayerLogin_of_cached hcached]
  exact JsMap.get_set_self _ _ _

end PlaygroundAccessTracker

/-! ## Histories that leave a cache entry alone -/

namespace PlaygroundAccessTracker

theorem onPlayerDisconnect_of_none {t : PlaygroundAccessTracker} {player : Player}
    (token : Nat) (h : JsMap.get t.exceptions_ player.ref = none) :
    t.onPlayerDisconnect player token = t := by
  unfold onPlayerDisconnect
  simp [h]

theorem onPlayerDisconnect_of_empty {t : PlaygroundAccessTracker} {player : Player}
    {exceptions : JsSet String} (token : Nat)
    (hheld : JsMap.get t.exceptions_ player.ref = some exceptions)
    (hsize : JsSet.size exceptions = 0) :
    t.onPlayerDisconnect player token =
      { t with exceptions_ := JsMap.delete t.exceptions_ player.ref } := by
  unfold onPlayerDisconnect
  simp [hheld, hsize]

theorem quietFor_cons (userId : Option Nat) (t : PlaygroundAccessTracker) (op : Op)
    (ops : List Op) :
    quietFor userId t (op :: ops)
      = (quietFor userId t [op] && quietFor userId (t.apply op) ops) := by
  simp [quietFor]

/-- A call that is quiet for `userId`, is not an eviction for `userId` and is not `dispose`
leaves what the cache holds for `userId` as it was. -/
theorem apply_cache_frame (userId : Option Nat) (t : PlaygroundAccessTracker) (op : Op)
    (hq : quietFor userId t [op] = true)
    (hev : ∀ token, op ≠ .evict userId token) (hd : op ≠ .dispose) :
    JsMap.get (t.apply op).cachedExceptions_ userId = JsMap.get t.cachedExceptions_ userId ∧
      JsMap.get (t.apply op).cachedExceptionsToken_ userId
        = JsMap.get t.cachedExceptionsToken_ userId := by
  cases op with
  | registerCommand c l => exact ⟨rfl, rfl⟩
  | unregisterCommand c => exact ⟨rfl, rfl⟩
  | setCommandLevel c l =>
    by_cases hhas : JsMap.has t.commandLevels_ c = true <;>
      simp [apply, step, setCommandLevel, hhas]
  | addException c p src =>
    simp only [apply, step]
    cases hr : t.addException c p src with
    | error e => exact ⟨rfl, rfl⟩
    | ok t1 =>
      obtain ⟨-, -, e1, e2, -⟩ := addException_frame hr
      simp [e1, e2]
  | removeException c p src =>
    simp only [apply, step]
    cases hr : t.removeException c p src with
    | error e => exact ⟨rfl, rfl⟩
    | ok t1 =>
      obtain ⟨-, -, e1, e2, -⟩ := removeException_frame hr
      simp [e1, e2]
  | onPlayerLogin p =>
    have hne : p.account.userId ≠ userId := by simpa [quietFor] using hq
    simp only [apply, step]
    cases hc : JsMap.get t.cachedExceptions_ p.account.userId with
    | none =>
      rw [onPlayerLogin_of_not_cached hc]
      exact ⟨rfl, rfl⟩
    | some cached =>
      rw [onPlayerLogin_of_cached hc]
      exact ⟨JsMap.get_delete_other _ hne, JsMap.get_delete_other _ hne⟩
  | onPlayerDisconnect p token =>
    have hne : (JsMap.get t.userIds_ p.ref).join ≠ userId := by simpa [quietFor] using hq
    simp only [apply, step]
    cases he : JsMap.get t.exceptions_ p.ref with
    | none =>
      rw [onPlayerDisconnect_of_none token he]
      exact ⟨rfl, rfl⟩
    | some exceptions =>
      by_cases hs : JsSet.size exceptions = 0
      · rw [onPlayerDisconnect_of_empty token he hs]
        exact ⟨rfl, rfl⟩
      · rw [onPlayerDisconnect_of_held token he hs]
        exact ⟨JsMap.get_set_other _ _ hne, JsMap.get_set_other _ _ hne⟩
  | evict u token =>
    have hne : u ≠ userId := by
      intro h
      subst h
      exact hev token rfl
    simp only [apply, step]
    by_cases ht : JsMap.get t.cachedExceptionsToken_ u = some token
    · rw [evict_of_eq ht]
      exact ⟨JsMap.get_delete_other _ hne, JsMap.get_delete_other _ hne⟩
    · rw [evict_of_ne ht]
      exact ⟨rfl, rfl⟩
  | dispose => exact absurd rfl hd

/-- A call that is quiet for `userId` keeps the cache empty for `userId`. -/
theorem apply_keeps_uncached (userId : Option Nat) (t : PlaygroundAccessTracker) (op : Op)
    (hq : quietFor userId t [op] = true)
    (h : JsMap.get t.cachedExceptions_ userId = none) :
    JsMap.get (t.apply op).cachedExceptions_ userId = none := by
  by_cases hd : op = .dispose
  · subst hd
    rfl
  · by_cases hev : ∃ token, op = .evict userId token
    · obtain ⟨token, rfl⟩ := hev
      simp only [apply, step]
      by_cases ht : JsMap.get t.cachedExceptionsToken_ userId = some token
      · rw [evict_of_eq ht]
        exact JsMap.get_delete_self _ _
      · rw [evict_of_ne ht]
        exact h
    · rw [(apply_cache_frame userId t op hq (fun token heq => hev ⟨token, heq⟩) hd).1]
      exact h

/-- A call that is quiet for `userId` keeps the cache either empty for `userId` or guarded
by `token`. -/
theorem apply_keeps_evictable (userId : Option Nat) (token : Nat)
    (t : PlaygroundAccessTracker) (op : Op)
    (hq : quietFor userId t [op] = true)
    (h : JsMap.get t.cachedExceptions_ userId = none ∨
      JsMap.get t.cachedExceptionsToken_ userId = some token) :
    JsMap.get (t.apply op).cachedExceptions_ userId = none ∨
      JsMap.get (t.apply op).cachedExceptionsToken_ userId = some token := by
  by_cases hd : op = .dispose
  · subst hd
    exact Or.inl rfl
  · by_cases hev : ∃ other, op = .evict userId other
    · obtain ⟨other, rfl⟩ := hev
      simp only [apply, step]
      by_cases ht : JsMap.get t.cachedExceptionsToken_ userId = some other
      · rw [evict_of_eq ht]
        exact Or.inl (JsMap.get_delete_self _ _)
      · rw [evict_of_ne ht]
        exact h
    · obtain ⟨e1, e2⟩ := apply_cache_frame userId t op hq (fun other heq => hev ⟨other, heq⟩) hd
      rw [e1, e2]
      exact h

/-- A call that is quiet for `userId`, is not the eviction holding `token` and is not
`dispose` keeps a set cached for `userId` under `token`. -/
theorem apply_keeps_cached (userId : Option Nat) (token : Nat) (cached : JsSet String)
    (t : PlaygroundAccessTracker) (op : Op)
    (hq : quietFor userId t [op] = true)
    (hev : op ≠ .evict userId token) (hd : op ≠ .dispose)
    (h : JsMap.get t.cachedExceptions_ userId = some cached ∧
      JsMap.get t.cachedExceptionsToken_ userId = some token) :
    JsMap.get (t.apply op).cachedExceptions_ userId = some cached ∧
      JsMap.get (t.apply op).cachedExceptionsToken_ userId = some token := by
  by_cases hev2 : ∃ other, op = .evict userId other
  · obtain ⟨other, rfl⟩ := hev2
    have hne : JsMap.get t.cachedExceptionsToken_ userId ≠ some other := by
      rw [h.2]
      intro heq
      cases heq
      exact hev rfl
    simp only [apply, step]
    rw [evict_of_ne hne]
    exact h
  · obtain ⟨e1, e2⟩ := apply_cache_frame userId t op hq (fun other heq => hev2 ⟨other, heq⟩) hd
    rw [e1, e2]
    exact h

theorem run_keeps_uncached (userId : Option Nat) (ops : List Op) :
    ∀ t : PlaygroundAccessTracker, quietFor userId t ops = true →
      JsMap.get t.cachedExceptions_ userId = none →
      JsMap.get (t.run ops).cachedExceptions_ userId = none := by
  induction ops with
  | nil =>
    intro t _ h
    exact h
  | cons op ops ih =>
    intro t hq h
    rw [quietFor_cons, Bool.and_eq_true] at hq
    exact ih (t.apply op) hq.2 (apply_keeps_uncached userId t op hq.1 h)

theorem run_keeps_evictable (userId : Option Nat) (token : Nat) (ops : List Op) :
    ∀ t : PlaygroundAccessTracker, quietFor userId t ops = true →
      (JsMap.get t.cachedExceptions_ userId = none ∨
        JsMap.get t.cachedExceptionsToken_ userId = some token) →
      (JsMap.get (t.run ops).cachedExceptions_ userId = none ∨
        JsMap.get (t.run ops).cachedExceptionsToken_ userId = some token) := by
  induction ops with
  | nil =>
    intro t _ h
    exact h
  | cons op ops ih =>
    intro t hq h
    rw [quietFor_cons, Bool.and_eq_true] at hq
    exact ih (t.apply op) hq.2 (apply_keeps_evictable userId token t op hq.1 h)

theorem run_keeps_cached (userId : Option Nat) (token : Nat) (cached : JsSet String)
    (ops : List Op) :
    ∀ t : PlaygroundAccessTracker, quietFor userId t ops = true →
      (∀ op ∈ ops, op ≠ .evict userId token ∧ op ≠ .dispose) →
      (JsMap.get t.cachedExceptions_ userId = some cached ∧
        JsMap.get t.cachedExceptionsToken_ userId = some token) →
      (JsMap.get (t.run ops).cachedExceptions_ userId = some cached ∧
        JsMap.get (t.run ops).cachedExceptionsToken_ userId = some token) := by
  induction ops with
  | nil =>
    intro t _ _ h
    exact h
  | cons op ops ih =>
    intro t hq hops h
    rw [quietFor_cons, Bool.and_eq_true] at hq
    have hop := hops op (List.mem_cons_self _ _)
    exact ih (t.apply op) hq.2 (fun o ho => hops o (List.mem_cons_of_mem _ ho))
      (apply_keeps_cached userId token cached t op hq.1 hop.1 hop.2 h)

end PlaygroundAccessTracker

/-! ## Reconnecting -/

namespace PlaygroundAccessTracker

/-- C3: a player who logged in with `userId` and holds the non-empty set `exceptions`
disconnects, and a session of the same user id logs in before the scheduled eviction
fires; the calls in between are any that are not a login or disconnect for that user id,
the scheduled eviction, or `dispose`. The new session then holds exactly `exceptions`,
`hasException` answers for it what it answered for the old session on every command (the
account being registered or not as before), and the cache holds neither a set nor a token
for `userId`. -/
theorem onPlayerLogin_restores_exceptions (t : PlaygroundAccessTracker)
    (player newPlayer : Player) (token : Nat) (userId : Option Nat)
    (exceptions : JsSet String) (between : List Op)
    (hlogin : JsMap.get t.userIds_ player.ref = some userId)
    (hheld : JsMap.get t.exceptions_ player.ref = some exceptions)
    (hsize : JsSet.size exceptions ≠ 0)
    (hquiet : quietFor userId (t.onPlayerDisconnect player token) between = true)
    (hpending : ∀ op ∈ between, op ≠ .evict userId token ∧ op ≠ .dispose)
    (hsame : newPlayer.account.userId = userId) :
    JsMap.get
      (((t.onPlayerDisconnect player token).run between).onPlayerLogin newPlayer).exceptions_
      newPlayer.ref = some exceptions ∧
    (newPlayer.account.isRegistered = player.account.isRegistered →
      ∀ command,
        (((t.onPlayerDisconnect player token).run between).onPlayerLogin
          newPlayer).hasException command newPlayer = t.hasException command player) ∧
    JsMap.get
      (((t.onPlayerDisconnect player token).run between).onPlayerLogin
        newPlayer).cachedExceptions_ userId = none ∧
    JsMap.get
      (((t.onPlayerDisconnect player token).run between).onPlayerLogin
        newPlayer).cachedExceptionsToken_ userId = none := by
  have hd := onPlayerDisconnect_of_held token hheld hsize
  have hjoin : (JsMap.get t.userIds_ player.ref).join = userId := by
    rw [hlogin]
    rfl
  rw [hjoin] at hd
  have hstart : JsMap.get (t.onPlayerDisconnect player token).cachedExceptions_ userId
        = some exceptions ∧
      JsMap.get (t.onPlayerDisconnect player token).cachedExceptionsToken_ userId
        = some token := by
    rw [hd]
    exact ⟨JsMap.get_set_self _ _ _, JsMap.get_set_self _ _ _⟩
  have hkept := run_keeps_cached userId token exceptions between _ hquiet hpending hstart
  have hcached : JsMap.get ((t.onPlayerDisconnect player token).run between).cachedExceptions_
      newPlayer.account.userId = some exceptions := by
    rw [hsame]
    exact hkept.1
  have hl := onPlayerLogin_of_cached hcached
  have hget : JsMap.get
      (((t.onPlayerDisconnect player token).run between).onPlayerLogin newPlayer).exceptions_
      newPlayer.ref = some exceptions := by
    rw [hl]
    exact JsMap.get_set_self _ _ _
  refine ⟨hget, fun hreg command => ?_, ?_, ?_⟩
  · exact hasException_congr command hreg (hget.trans hheld.symm)
  · rw [hl, hsame]
    exact JsMap.get_delete_self _ _
  · rw [hl, hsame]
    exact JsMap.get_delete_self _ _

/-- An instance of `onPlayerLogin_restores_exceptions`: `gunther` holds `c` in `granted`
and disconnects; `c` is unregistered, `russell` logs in and an older eviction fires; then
the account of `gunther` logs in again as `guntherAgain`. -/
theorem onPlayerLogin_restores_exceptions_witness :
    JsMap.get granted.userIds_ gunther.ref = some (some 42) ∧
    JsMap.get granted.exceptions_ gunther.ref = some ["c"] ∧
    JsSet.size ["c"] ≠ 0 ∧
    quietFor (some 42) (granted.onPlayerDisconnect gunther 5)
      [.unregisterCommand "c", .onPlayerLogin russell, .evict (some 42) 4] = true ∧
    guntherAgain.account.userId = some 42 ∧
    guntherAgain.account.isRegistered = gunther.account.isRegistered ∧
    JsMap.get
      (((granted.onPlayerDisconnect gunther 5).run
        [.unregisterCommand "c", .onPlayerLogin russell, .evict (some 42) 4]).onPlayerLogin
        guntherAgain).exceptions_ guntherAgain.ref = some ["c"] ∧
    (∀ command,
      (((granted.onPlayerDisconnect gunther 5).run
        [.unregisterCommand "c", .onPlayerLogin russell, .evict (some 42) 4]).onPlayerLogin
        guntherAgain).hasException command guntherAgain
        = granted.hasException command gunther) :=
  have h := onPlayerLogin_restores_exceptions granted gunther guntherAgain 5 (some 42) ["c"]
    [.unregisterCommand "c", .onPlayerLogin russell, .evict (some 42) 4]
    rfl rfl (by decide) (by decide) (by decide) rfl
  ⟨rfl, rfl, by decide, by decide, rfl, rfl, h.1, h.2.1 rfl⟩

/-- C4: a player holding the non-empty set `exceptions` disconnects and the eviction this
scheduled (300000 ms later, with the user id and token of the disconnect) fires, no call
in between being a login or disconnect for that user id. A session of the same user id
that logs in later, before any disconnect for that user id, gets nothing restored: the
login changes no live exception set and sends no message, so a new session (one without
a live exception set) has none afterwards and `hasException` answers false for it on
every command. -/
theorem onPlayerLogin_after_evict (t s : PlaygroundAccessTracker)
    (player newPlayer : Player) (token : Nat) (exceptions : JsSet String)
    (between later : List Op)
    (hheld : JsMap.get t.exceptions_ player.ref = some exceptions)
    (hsize : JsSet.size exceptions ≠ 0)
    (hsame : newPlayer.account.userId = (JsMap.get t.userIds_ player.ref).join)
    (hbetween : quietFor newPlayer.account.userId (t.onPlayerDisconnect player token)
      between = true)
    (hlater : quietFor newPlayer.account.userId
      (((t.onPlayerDisconnect player token).run between).evict newPlayer.account.userId token)
      later = true)
    (hs : s = ((((t.onPlayerDisconnect player token).run between).evict
      newPlayer.account.userId token).run later))
    (hfresh : JsMap.get s.exceptions_ newPlayer.ref = none) :
    Timer.mk 300000 newPlayer.account.userId token
      ∈ (t.onPlayerDisconnect player token).timers ∧
    (s.onPlayerLogin newPlayer).exceptions_ = s.exceptions_ ∧
    (s.onPlayerLogin newPlayer).sent = s.sent ∧
    JsMap.get (s.onPlayerLogin newPlayer).exceptions_ newPlayer.ref = none ∧
    ∀ command, (s.onPlayerLogin newPlayer).hasException command newPlayer = false := by
  have hd := onPlayerDisconnect_of_held token hheld hsize
  rw [← hsame] at hd
  have hstart : JsMap.get (t.onPlayerDisconnect player token).cachedExceptions_
        newPlayer.account.userId = none ∨
      JsMap.get (t.onPlayerDisconnect player token).cachedExceptionsToken_
        newPlayer.account.userId = some token := by
    rw [hd]
    exact Or.inr (JsMap.get_set_self _ _ _)
  have hfire : JsMap.get
      (((t.onPlayerDisconnect player token).run between).evict newPlayer.account.userId
        token).cachedExceptions_ newPlayer.account.userId = none := by
    rcases run_keeps_evictable _ token between _ hbetween hstart with hnone | htoken
    · by_cases ht : JsMap.get
          ((t.onPlayerDisconnect player token).run between).cachedExceptionsToken_
          newPlayer.account.userId = some token
      · rw [evict_of_eq ht]
        exact JsMap.get_delete_self _ _
      · rw [evict_of_ne ht]
        exact hnone
    · rw [evict_of_eq htoken]
      exact JsMap.get_delete_self _ _
  have hnone : JsMap.get s.cachedExceptions_ newPlayer.account.userId = none := by
    rw [hs]
    exact run_keeps_uncached _ later _ hlater hfire
  have hl := onPlayerLogin_of_not_cached hnone
  have hgone : JsMap.get (s.onPlayerLogin newPlayer).exceptions_ newPlayer.ref = none := by
    rw [hl]
    exact hfresh
  refine ⟨?_, ?_, ?_, hgone, fun command => ?_⟩
  · rw [hd]
    simp [ExceptionReconnectTimeoutMs]
  · rw [hl]
  · rw [hl]
  · unfold hasException
    rw [hgone]
    simp

/-- An instance of `onPlayerLogin_after_evict`: `gunther` disconnects from `granted`,
`russell` logs in, the cached set of `gunther` is evicted, `c` is unregistered, and the
account of `gunther` logs in again as `guntherAgain`. -/
theorem onPlayerLogin_after_evict_witness :
    JsMap.get granted.exceptions_ gunther.ref = some ["c"] ∧
    JsSet.size ["c"] ≠ 0 ∧
    guntherAgain.account.userId = (JsMap.get granted.userIds_ gunther.ref).join ∧
    ∀ command,
      ((((((granted.onPlayerDisconnect gunther 5).run [.onPlayerLogin russell]).evict
        guntherAgain.account.userId 5).run [.unregisterCommand "c"])).onPlayerLogin
        guntherAgain).hasException command guntherAgain = false :=
  ⟨rfl, by decide, rfl,
    (onPlayerLogin_after_evict granted _ gunther guntherAgain 5 ["c"]
      [.onPlayerLogin russell] [.unregisterCommand "c"] rfl (by decide) rfl (by decide)
      (by decide) rfl (by decide)).2.2.2.2⟩

/-- C5: a player holding the non-empty set `exceptions` disconnects (token `token1`), a
session of the same user id logs in and disconnects in turn (token `token2`), the two
tokens being distinct. Firing the first eviction then changes nothing, and the cache
still holds for that user id the set cached by the second disconnect and `token2`. -/
theorem evict_first_of_two_cycles (t : PlaygroundAccessTracker)
    (player newPlayer : Player) (token1 token2 : Nat) (userId : Option Nat)
    (exceptions : JsSet String)
    (hlogin : JsMap.get t.userIds_ player.ref = some userId)
    (hheld : JsMap.get t.exceptions_ player.ref = some exceptions)
    (hsize : JsSet.size exceptions ≠ 0)
    (hsame : newPlayer.account.userId = userId)
    (htokens : token1 ≠ token2) :
    (((t.onPlayerDisconnect player token1).onPlayerLogin newPlayer).onPlayerDisconnect
        newPlayer token2).evict userId token1 =
      ((t.onPlayerDisconnect player token1).onPlayerLogin newPlayer).onPlayerDisconnect
        newPlayer token2 ∧
    JsMap.get
      (((t.onPlayerDisconnect player token1).onPlayerLogin newPlayer).onPlayerDisconnect
        newPlayer token2).cachedExceptions_ userId = some exceptions ∧
    JsMap.get
      (((t.onPlayerDisconnect player token1).onPlayerLogin newPlayer).onPlayerDisconnect
        newPlayer token2).cachedExceptionsToken_ userId = some token2 := by
  have h := restored_after_reconnect token1 hlogin hheld hsize hsame
  have hids : (JsMap.get
      ((t.onPlayerDisconnect player token1).onPlayerLogin newPlayer).userIds_
      newPlayer.ref).join = userId := by
    rw [onPlayerLogin_userIds, hsame]
    rfl
  have hd := onPlayerDisconnect_of_held token2 h hsize
  rw [hids] at hd
  have htok : JsMap.get
      (((t.onPlayerDisconnect player token1).onPlayerLogin newPlayer).onPlayerDisconnect
        newPlayer token2).cachedExceptionsToken_ userId = some token2 := by
    rw [hd]
    exact JsMap.get_set_self _ _ _
  refine ⟨evict_of_ne ?_, ?_, htok⟩
  · rw [htok]
    intro heq
    cases heq
    exact htokens rfl
  · rw [hd]
    exact JsMap.get_set_self _ _ _

/-- An instance of `evict_first_of_two_cycles`: `gunther` leaves `granted` with token 5,
`guntherAgain` logs in and leaves with token 6, and the eviction holding token 5 fires. -/
theorem evict_first_of_two_cycles_witness :
    JsMap.get granted.userIds_ gunther.ref = some (some 42) ∧
    JsMap.get granted.exceptions_ gunther.ref = some ["c"] ∧
    JsSet.size ["c"] ≠ 0 ∧
    guntherAgain.account.userId = some 42 ∧
    (5 : Nat) ≠ 6 ∧
    (((granted.onPlayerDisconnect gunther 5).onPlayerLogin guntherAgain).onPlayerDisconnect
        guntherAgain 6).evict (some 42) 5 =
      ((granted.onPlayerDisconnect gunther 5).onPlayerLogin guntherAgain).onPlayerDisconnect
        guntherAgain 6 ∧
    JsMap.get
      (((granted.onPlayerDisconnect gunther 5).onPlayerLogin guntherAgain).onPlayerDisconnect
        guntherAgain 6).cachedExceptions_ (some 42) = some ["c"] ∧
    JsMap.get
      (((granted.onPlayerDisconnect gunther 5).onPlayerLogin guntherAgain).onPlayerDisconnect
        guntherAgain 6).cachedExceptionsToken_ (some 42) = some 6 :=
  ⟨rfl, rfl, by decide, rfl, by decide,
    evict_first_of_two_cycles granted gunther guntherAgain 5 6 (some 42) ["c"]
      rfl rfl (by decide) rfl (by decide)⟩

/-- C6: firing the eviction that captured `token` for `userId` deletes the cached set and
the stored token of `userId` when the token stored for `userId` is `token`, and changes
nothing at all otherwise; either way the live exception sets are what they were. -/
theorem evict_iff_token (t : PlaygroundAccessTracker) (userId : Option Nat) (token : Nat) :
    (JsMap.get t.cachedExceptionsToken_ userId = some token →
      (t.evict userId token).cachedExceptions_ = JsMap.delete t.cachedExceptions_ userId ∧
      (t.evict userId token).cachedExceptionsToken_
        = JsMap.delete t.cachedExceptionsToken_ userId ∧
      JsMap.get (t.evict userId token).cachedExceptions_ userId = none ∧
      JsMap.get (t.evict userId token).cachedExceptionsToken_ userId = none) ∧
    (JsMap.get t.cachedExceptionsToken_ userId ≠ some token →
      t.evict userId token = t) ∧
    (t.evict userId token).exceptions_ = t.exceptions_ := by
  refine ⟨fun h => ?_, fun h => evict_of_ne h, ?_⟩
  · rw [evict_of_eq h]
    exact ⟨rfl, rfl, JsMap.get_delete_self _ _, JsMap.get_delete_self _ _⟩
  · by_cases h : JsMap.get t.cachedExceptionsToken_ userId = some token
    · rw [evict_of_eq h]
    · rw [evict_of_ne h]

/-- An instance of `evict_iff_token`: after `gunther` left `granted` with token 5, the
eviction holding token 5 empties the cache and the one holding token 4 does nothing. -/
theorem evict_iff_token_witness :
    JsMap.get (granted.onPlayerDisconnect gunther 5).cachedExceptionsToken_ (some 42)
      = some 5 ∧
    JsMap.get ((granted.onPlayerDisconnect gunther 5).evict (some 42) 5).cachedExceptions_
      (some 42) = none ∧
    JsMap.get (granted.onPlayerDisconnect gunther 5).cachedExceptionsToken_ (some 42)
      ≠ some 4 ∧
    (granted.onPlayerDisconnect gunther 5).evict (some 42) 4
      = granted.onPlayerDisconnect gunther 5 :=
  ⟨rfl,
    ((evict_iff_token (granted.onPlayerDisconnect gunther 5) (some 42) 5).1 rfl).2.2.1,
    by decide,
    (evict_iff_token (granted.onPlayerDisconnect gunther 5) (some 42) 4).2.1 (by decide)⟩

end PlaygroundAccessTracker

/-! ## Registering and unregistering commands -/

namespace PlaygroundAccessTracker

theorem getExceptions_unregisterCommand_self (m : JsMap Nat (JsSet String)) (command : String) :
    (m.map (fun e => (e.1, JsSet.delete e.2 command))).filter
      (fun e => JsSet.has e.2 command) = [] := by
  induction m with
  | nil => rfl
  | cons e rest ih => simp [List.filter_cons, JsSet.has_delete_self, ih]

theorem getExceptions_unregisterCommand_other (m : JsMap Nat (JsSet String))
    {command other : String} (h : other ≠ command) :
    ((m.map (fun e => (e.1, JsSet.delete e.2 command))).filter
      (fun e => JsSet.has e.2 other)).map (fun e => e.1)
      = (m.filter (fun e => JsSet.has e.2 other)).map (fun e => e.1) := by
  induction m with
  | nil => rfl
  | cons e rest ih =>
    simp only [List.map_cons, List.filter_cons, JsSet.has_delete_other _ h]
    split <;> simp [ih]

theorem get_exceptions_unregisterCommand (t : PlaygroundAccessTracker) (command : String)
    (ref : Nat) :
    JsMap.get (t.unregisterCommand command).exceptions_ ref
      = (JsMap.get t.exceptions_ ref).map (fun s => JsSet.delete s command) :=
  JsMap.get_map_values t.exceptions_ (fun s => JsSet.delete s command) ref

/-- C7: immediately after `unregisterCommand(command)`, `hasException(command, player)` is
false for every player, `getExceptionCount(command)` is 0, `getCommandLevel(command)` and
`getDefaultCommandLevel(command)` throw, and for every other command `hasException` and
`getExceptions` answer what they answered before. -/
theorem unregisterCommand_removes (t : PlaygroundAccessTracker) (command : String) :
    (∀ player, (t.unregisterCommand command).hasException command player = false) ∧
    (t.unregisterCommand command).getExceptions command = [] ∧
    (t.unregisterCommand command).getExceptionCount command = 0 ∧
    (t.unregisterCommand command).getCommandLevel command
      = .error ("Invalid command given: " ++ command) ∧
    (t.unregisterCommand command).getDefaultCommandLevel command
      = .error ("Invalid command given: " ++ command) ∧
    (∀ other player, other ≠ command →
      (t.unregisterCommand command).hasException other player
        = t.hasException other player) ∧
    (∀ other, other ≠ command →
      (t.unregisterCommand command).getExceptions other = t.getExceptions other) := by
  have hempty : (t.unregisterCommand command).getExceptions command = [] := by
    simp [getExceptions, unregisterCommand, getExceptions_unregisterCommand_self]
  refine ⟨fun player => ?_, hempty, ?_, ?_, ?_, fun other player h => ?_, fun other h => ?_⟩
  · unfold hasException
    rw [get_exceptions_unregisterCommand]
    cases JsMap.get t.exceptions_ player.ref <;> simp [JsSet.has_delete_self]
  · simp [getExceptionCount, hempty]
  · simp [getCommandLevel, unregisterCommand, JsMap.get_delete_self]
  · simp [getDefaultCommandLevel, unregisterCommand, JsMap.get_delete_self]
  · unfold hasException
    rw [get_exceptions_unregisterCommand]
    cases JsMap.get t.exceptions_ player.ref <;> simp [JsSet.has_delete_other _ h]
  · simp only [getExceptions, unregisterCommand]
    exact getExceptions_unregisterCommand_other _ h

/-- An instance of `unregisterCommand_removes`: unregistering `c` in `granted` leaves the
exceptions for the other command `d` as they were. -/
theorem unregisterCommand_removes_witness :
    "d" ≠ "c" ∧
    (granted.unregisterCommand "c").hasException "d" gunther
      = granted.hasException "d" gunther ∧
    (granted.unregisterCommand "c").getExceptions "d" = granted.getExceptions "d" :=
  ⟨by decide,
    (unregisterCommand_removes granted "c").2.2.2.2.2.1 "d" gunther (by decide),
    (unregisterCommand_removes granted "c").2.2.2.2.2.2 "d" (by decide)⟩

/-- C8 fails on the code: `gunther` holds an exception for `c`, logs out, and `c` is
unregistered while his set sits in the reconnect cache; when his account logs in again
the cached set is restored as it was, and `hasException("c", ...)` answers true although
no `addException` followed the `unregisterCommand`. -/
theorem hasException_after_unregisterCommand_of_cached :
    (((granted.onPlayerDisconnect gunther 5).unregisterCommand "c").onPlayerLogin
      guntherAgain).hasException "c" guntherAgain = true ∧
    (PlaygroundAccessTracker.new.run
      [.registerCommand "c" 2, .onPlayerLogin gunther, .addException "c" gunther none,
        .onPlayerDisconnect gunther 5, .unregisterCommand "c",
        .onPlayerLogin guntherAgain]).hasException "c" guntherAgain = true :=
  ⟨by decide, by decide⟩

/-- C10: after `registerCommand(command, defaultLevel)` both `getCommandLevel(command)` and
`getDefaultCommandLevel(command)` return `defaultLevel`; the current and default level of
every other command, every live exception set and the reconnect cache are unchanged. -/
theorem registerCommand_sets_levels (t : PlaygroundAccessTracker) (command : String)
    (defaultLevel : Int) :
    (t.registerCommand command defaultLevel).getCommandLevel command = .ok defaultLevel ∧
    (t.registerCommand command defaultLevel).getDefaultCommandLevel command
      = .ok defaultLevel ∧
    (∀ other, other ≠ command →
      (t.registerCommand command defaultLevel).getCommandLevel other
        = t.getCommandLevel other ∧
      (t.registerCommand command defaultLevel).getDefaultCommandLevel other
        = t.getDefaultCommandLevel other) ∧
    (t.registerCommand command defaultLevel).exceptions_ = t.exceptions_ ∧
    (∀ other player,
      (t.registerCommand command defaultLevel).hasException other player
        = t.hasException other player) ∧
    (t.registerCommand command defaultLevel).cachedExceptions_ = t.cachedExceptions_ := by
  refine ⟨?_, ?_, fun other h => ⟨?_, ?_⟩, rfl, fun other player => rfl, rfl⟩
  · simp [getCommandLevel, registerCommand, JsMap.get_set_self]
  · simp [getDefaultCommandLevel, registerCommand, JsMap.get_set_self]
  · simp [getCommandLevel, registerCommand, JsMap.get_set_other _ _ (Ne.symm h)]
  · simp [getDefaultCommandLevel, registerCommand, JsMap.get_set_other _ _ (Ne.symm h)]

/-- An instance of `registerCommand_sets_levels`: registering `d` in `granted` leaves the
levels of `c` as they were. -/
theorem registerCommand_sets_levels_witness :
    "c" ≠ "d" ∧
    (granted.registerCommand "d" 1).getCommandLevel "c" = granted.getCommandLevel "c" ∧
    (granted.registerCommand "d" 1).getDefaultCommandLevel "c"
      = granted.getDefaultCommandLevel "c" :=
  ⟨by decide, (registerCommand_sets_levels granted "d" 1).2.2.1 "c" (by decide)⟩

end PlaygroundAccessTracker

/-! ## Reading and changing levels -/

namespace PlaygroundAccessTracker

theorem onPlayerLogin_levels (t : PlaygroundAccessTracker) (player : Player) :
    (t.onPlayerLogin player).commandLevels_ = t.commandLevels_ ∧
      (t.onPlayerLogin player).commandLevelDefaults_ = t.commandLevelDefaults_ := by
  cases hc : JsMap.get t.cachedExceptions_ player.account.userId with
  | none => rw [onPlayerLogin_of_not_cached hc]; exact ⟨rfl, rfl⟩
  | some cached => rw [onPlayerLogin_of_cached hc]; exact ⟨rfl, rfl⟩

theorem onPlayerDisconnect_levels (t : PlaygroundAccessTracker) (player : Player)
    (token : Nat) :
    (t.onPlayerDisconnect player token).commandLevels_ = t.commandLevels_ ∧
      (t.onPlayerDisconnect player token).commandLevelDefaults_
        = t.commandLevelDefaults_ := by
  unfold onPlayerDisconnect
  cases JsMap.get t.exceptions_ player.ref with
  | none => exact ⟨rfl, rfl⟩
  | some exceptions =>
    by_cases h : JsSet.size exceptions = 0 <;> simp [h]

theorem evict_levels (t : PlaygroundAccessTracker) (userId : Option Nat) (token : Nat) :
    (t.evict userId token).commandLevels_ = t.commandLevels_ ∧
      (t.evict userId token).commandLevelDefaults_ = t.commandLevelDefaults_ := by
  by_cases h : JsMap.get t.cachedExceptionsToken_ userId = some token
  · rw [evict_of_eq h]
    exact ⟨rfl, rfl⟩
  · rw [evict_of_ne h]
    exact ⟨rfl, rfl⟩

/-- One call keeps the two level tables in step: when both hold `command` exactly when
`registered` is true, then after the call both hold it exactly when the history says so. -/
theorem apply_keeps_tables_in_step (t : PlaygroundAccessTracker) (command : String)
    (registered : Bool) (op : Op)
    (h : (JsMap.get t.commandLevels_ command).isSome = registered ∧
      (JsMap.get t.commandLevelDefaults_ command).isSome = registered) :
    (JsMap.get (t.apply op).commandLevels_ command).isSome
        = registeredAfter command registered [op] ∧
      (JsMap.get (t.apply op).commandLevelDefaults_ command).isSome
        = registeredAfter command registered [op] := by
  obtain ⟨h1, h2⟩ := h
  cases op with
  | registerCommand c l =>
    by_cases hc : c = command
    · subst hc
      simp [apply, step, registerCommand, registeredAfter, JsMap.get_set_self]
    · simp [apply, step, registerCommand, registeredAfter, JsMap.get_set_other _ _ hc, hc,
        h1, h2]
  | unregisterCommand c =>
    by_cases hc : c = command
    · subst hc
      simp [apply, step, unregisterCommand, registeredAfter, JsMap.get_delete_self]
    · simp [apply, step, unregisterCommand, registeredAfter, JsMap.get_delete_other _ hc, hc,
        h1, h2]
  | setCommandLevel c l =>
    simp only [apply, step, setCommandLevel, registeredAfter]
    by_cases hhas : JsMap.has t.commandLevels_ c = true
    · simp only [hhas, Bool.not_true, Bool.false_eq_true, if_false]
      by_cases hc : c = command
      · subst hc
        have : registered = true := by
          rw [← h1]
          exact hhas
        simp [JsMap.get_set_self, this, h2]
      · simp [JsMap.get_set_other _ _ hc, h1, h2]
    · simp [hhas, h1, h2]
  | addException c p src =>
    simp only [apply, step, registeredAfter]
    cases hr : t.addException c p src with
    | error e => exact ⟨h1, h2⟩
    | ok t1 =>
      obtain ⟨e1, e2, -⟩ := addException_frame hr
      simp [e1, e2, h1, h2]
  | removeException c p src =>
    simp only [apply, step, registeredAfter]
    cases hr : t.removeException c p src with
    | error e => exact ⟨h1, h2⟩
    | ok t1 =>
      obtain ⟨e1, e2, -⟩ := removeException_frame hr
      simp [e1, e2, h1, h2]
  | onPlayerLogin p =>
    obtain ⟨e1, e2⟩ := onPlayerLogin_levels t p
    simp [apply, step, registeredAfter, e1, e2, h1, h2]
  | onPlayerDisconnect p token =>
    obtain ⟨e1, e2⟩ := onPlayerDisconnect_levels t p token
    simp [apply, step, registeredAfter, e1, e2, h1, h2]
  | evict u token =>
    obtain ⟨e1, e2⟩ := evict_levels t u token
    simp [apply, step, registeredAfter, e1, e2, h1, h2]
  | dispose =>
    simp [apply, step, registeredAfter, dispose, JsMap.clear, JsMap.get]

theorem registeredAfter_cons (command : String) (registered : Bool) (op : Op)
    (ops : List Op) :
    registeredAfter command registered (op :: ops)
      = registeredAfter command (registeredAfter command registered [op]) ops := by
  cases op <;> simp [registeredAfter]

theorem run_keeps_tables_in_step (command : String) (ops : List Op) :
    ∀ (t : PlaygroundAccessTracker) (registered : Bool),
      (JsMap.get t.commandLevels_ command).isSome = registered ∧
        (JsMap.get t.commandLevelDefaults_ command).isSome = registered →
      (JsMap.get (t.run ops).commandLevels_ command).isSome
          = registeredAfter command registered ops ∧
        (JsMap.get (t.run ops).commandLevelDefaults_ command).isSome
          = registeredAfter command registered ops := by
  induction ops with
  | nil =>
    intro t registered h
    exact h
  | cons op ops ih =>
    intro t registered h
    rw [registeredAfter_cons]
    exact ih (t.apply op) _ (apply_keeps_tables_in_step t command registered op h)

/-- C9: in the state reached from a new tracker by any history of calls,
`getCommandLevel(command)`, `getDefaultCommandLevel(command)` and
`setCommandLevel(command, level)` throw `Invalid command given: ` followed by the command
when the command is not registered at that point, and return normally when it is; a
failing `setCommandLevel` leaves the state as it was, and after a successful one
`getCommandLevel(command)` returns `level`. -/
theorem level_calls_throw_iff_not_registered (ops : List Op) (command : String)
    (level : Int) :
    (registeredAfter command false ops = false →
      (PlaygroundAccessTracker.new.run ops).getCommandLevel command
        = .error ("Invalid command given: " ++ command) ∧
      (PlaygroundAccessTracker.new.run ops).getDefaultCommandLevel command
        = .error ("Invalid command given: " ++ command) ∧
      (PlaygroundAccessTracker.new.run ops).setCommandLevel command level
        = .error ("Invalid command given: " ++ command) ∧
      (PlaygroundAccessTracker.new.run ops).apply (.setCommandLevel command level)
        = PlaygroundAccessTracker.new.run ops) ∧
    (registeredAfter command false ops = true →
      (∃ current, (PlaygroundAccessTracker.new.run ops).getCommandLevel command
        = .ok current) ∧
      (∃ default, (PlaygroundAccessTracker.new.run ops).getDefaultCommandLevel command
        = .ok default) ∧
      (∃ t1, (PlaygroundAccessTracker.new.run ops).setCommandLevel command level = .ok t1 ∧
        t1.getCommandLevel command = .ok level)) := by
  obtain ⟨h1, h2⟩ := run_keeps_tables_in_step command ops PlaygroundAccessTracker.new false
    ⟨rfl, rfl⟩
  constructor
  · intro hreg
    rw [hreg] at h1 h2
    have g1 : JsMap.get (PlaygroundAccessTracker.new.run ops).commandLevels_ command = none := by
      simpa using h1
    have g2 : JsMap.get (PlaygroundAccessTracker.new.run ops).commandLevelDefaults_ command
        = none := by
      simpa using h2
    simp [getCommandLevel, getDefaultCommandLevel, setCommandLevel, apply, step, JsMap.has,
      g1, g2]
  · intro hreg
    rw [hreg] at h1 h2
    obtain ⟨current, g1⟩ := Option.isSome_iff_exists.mp h1
    obtain ⟨default, g2⟩ := Option.isSome_iff_exists.mp h2
    refine ⟨⟨current, ?_⟩, ⟨default, ?_⟩, ?_⟩
    · simp [getCommandLevel, g1]
    · simp [getDefaultCommandLevel, g2]
    · simp [getCommandLevel, setCommandLevel, JsMap.has, g1, JsMap.get_set_self]

/-- An instance of `level_calls_throw_iff_not_registered`: after `c` was registered and
unregistered again its level cannot be read, and while it is registered it can be set. -/
theorem level_calls_throw_iff_not_registered_witness :
    registeredAfter "c" false [.registerCommand "c" 2, .unregisterCommand "c"] = false ∧
    (PlaygroundAccessTracker.new.run
      [.registerCommand "c" 2, .unregisterCommand "c"]).getCommandLevel "c"
      = .error "Invalid command given: c" ∧
    registeredAfter "c" false [.registerCommand "c" 2] = true ∧
    (∃ t1, (PlaygroundAccessTracker.new.run [.registerCommand "c" 2]).setCommandLevel "c" 0
        = .ok t1 ∧ t1.getCommandLevel "c" = .ok 0) :=
  ⟨rfl,
    ((level_calls_throw_iff_not_registered [.registerCommand "c" 2, .unregisterCommand "c"]
      "c" 0).1 rfl).1,
    rfl,
    ((level_calls_throw_iff_not_registered [.registerCommand "c" 2] "c" 0).2 rfl).2.2⟩

end PlaygroundAccessTracker

/-! ## Levels along a history -/

namespace JsMap

variable {κ ν : Type} [DecidableEq κ]

theorem get_set_cases (m : JsMap κ ν) (k j : κ) (v x : ν) (h : get (set m k v) j = some x) :
    x = v ∨ get m j = some x := by
  by_cases hk : k = j
  · subst hk
    rw [get_set_self] at h
    cases h
    exact Or.inl rfl
  · rw [get_set_other m v hk] at h
    exact Or.inr h

theorem get_delete_cases (m : JsMap κ ν) (k j : κ) (x : ν) (h : get (delete m k) j = some x) :
    get m j = some x := by
  by_cases hk : k = j
  · subst hk
    rw [get_delete_self] at h
    cases h
  · rw [get_delete_other m hk] at h
    exact h

end JsMap

namespace PlaygroundAccessTracker

theorem setCommandLevel_frame {t t1 : PlaygroundAccessTracker} {command : String}
    {level : Int} (h : t.setCommandLevel command level = .ok t1) :
    t1 = { t with commandLevels_ := JsMap.set t.commandLevels_ command level } := by
  unfold setCommandLevel at h
  split at h
  · cases h
  · cases h
    rfl

/-- A session step leaves the table of default levels as it was. -/
theorem apply_keeps_defaults (t : PlaygroundAccessTracker) (op : Op)
    (h : op.isSessionStep = true) :
    (t.apply op).commandLevelDefaults_ = t.commandLevelDefaults_ := by
  cases op with
  | registerCommand c l => cases h
  | unregisterCommand c => cases h
  | dispose => cases h
  | setCommandLevel c l =>
    simp only [apply, step]
    cases hr : t.setCommandLevel c l with
    | error e => rfl
    | ok t1 => rw [setCommandLevel_frame hr]
  | addException c p src =>
    simp only [apply, step]
    cases hr : t.addException c p src with
    | error e => rfl
    | ok t1 => exact (addException_frame hr).2.1
  | removeException c p src =>
    simp only [apply, step]
    cases hr : t.removeException c p src with
    | error e => rfl
    | ok t1 => exact (removeException_frame hr).2.1
  | onPlayerLogin p => exact (onPlayerLogin_levels t p).2
  | onPlayerDisconnect p token => exact (onPlayerDisconnect_levels t p token).2
  | evict u token => exact (evict_levels t u token).2

theorem run_keeps_defaults (ops : List Op) :
    ∀ t : PlaygroundAccessTracker, (∀ op ∈ ops, op.isSessionStep = true) →
      (t.run ops).commandLevelDefaults_ = t.commandLevelDefaults_ := by
  induction ops with
  | nil =>
    intro t _
    rfl
  | cons op ops ih =>
    intro t h
    have h1 := ih (t.apply op) (fun o ho => h o (List.mem_cons_of_mem _ ho))
    have h2 := apply_keeps_defaults t op (h op (List.mem_cons_self _ _))
    simp only [run]
    rw [h1, h2]

/-- C11: after `registerCommand(command, defaultLevel)`, any sequence of `setCommandLevel`,
`addException`, `removeException`, `onPlayerLogin`, `onPlayerDisconnect` and eviction
steps, on any commands and players, leaves the table of default levels untouched, and
`getDefaultCommandLevel(command)` still returns `defaultLevel`; from any state, such a
sequence leaves the answer of `getDefaultCommandLevel` for every command as it was. -/
theorem getDefaultCommandLevel_after_session_steps (t : PlaygroundAccessTracker)
    (command : String) (defaultLevel : Int) (ops : List Op)
    (hops : ∀ op ∈ ops, op.isSessionStep = true) :
    ((t.registerCommand command defaultLevel).run ops).commandLevelDefaults_
      = (t.registerCommand command defaultLevel).commandLevelDefaults_ ∧
    ((t.registerCommand command defaultLevel).run ops).getDefaultCommandLevel command
      = .ok defaultLevel ∧
    (∀ other : String, (t.run ops).getDefaultCommandLevel other
      = t.getDefaultCommandLevel other) := by
  have h := run_keeps_defaults ops (t.registerCommand command defaultLevel) hops
  refine ⟨h, ?_, fun other => ?_⟩
  · unfold getDefaultCommandLevel
    rw [h]
    simp [registerCommand, JsMap.get_set_self]
  · unfold getDefaultCommandLevel
    rw [run_keeps_defaults ops t hops]

/-- An instance of `getDefaultCommandLevel_after_session_steps`: `d` is registered with
level 1 in `granted`; its level is set to 3, `gunther` is granted it and leaves, and the
eviction fires. -/
theorem getDefaultCommandLevel_after_session_steps_witness :
    (∀ op ∈ [Op.setCommandLevel "d" 3, .addException "d" gunther (some russell),
        .onPlayerDisconnect gunther 5, .evict (some 42) 5], op.isSessionStep = true) ∧
    ((granted.registerCommand "d" 1).run [.setCommandLevel "d" 3,
        .addException "d" gunther (some russell), .onPlayerDisconnect gunther 5,
        .evict (some 42) 5]).getDefaultCommandLevel "d" = .ok 1 :=
  ⟨by decide,
    (getDefaultCommandLevel_after_session_steps granted "d" 1 _ (by decide)).2.1⟩

/-- One call passing a level of at least 0 keeps every current level at least 0. -/
theorem apply_keeps_levels_nonnegative (t : PlaygroundAccessTracker) (op : Op)
    (hop : op.levelIsNonnegative = true)
    (h : ∀ c l, JsMap.get t.commandLevels_ c = some l → 0 ≤ l) :
    ∀ c l, JsMap.get (t.apply op).commandLevels_ c = some l → 0 ≤ l := by
  intro c l hget
  cases op with
  | registerCommand k v =>
    have hv : 0 ≤ v := by simpa [Op.levelIsNonnegative] using hop
    rcases JsMap.get_set_cases _ _ _ _ _ hget with rfl | hold
    · exact hv
    · exact h c l hold
  | unregisterCommand k => exact h c l (JsMap.get_delete_cases _ _ _ _ hget)
  | dispose => cases hget
  | setCommandLevel k v =>
    have hv : 0 ≤ v := by simpa [Op.levelIsNonnegative] using hop
    simp only [apply, step] at hget
    cases hr : t.setCommandLevel k v with
    | error e =>
      rw [hr] at hget
      exact h c l hget
    | ok t1 =>
      rw [hr, setCommandLevel_frame hr] at hget
      rcases JsMap.get_set_cases _ _ _ _ _ hget with rfl | hold
      · exact hv
      · exact h c l hold
  | addException k p src =>
    simp only [apply, step] at hget
    cases hr : t.addException k p src with
    | error e =>
      rw [hr] at hget
      exact h c l hget
    | ok t1 =>
      rw [hr] at hget
      simp only at hget
      rw [(addException_frame hr).1] at hget
      exact h c l hget
  | removeException k p src =>
    simp only [apply, step] at hget
    cases hr : t.removeException k p src with
    | error e =>
      rw [hr] at hget
      exact h c l hget
    | ok t1 =>
      rw [hr] at hget
      simp only at hget
      rw [(removeException_frame hr).1] at hget
      exact h c l hget
  | onPlayerLogin p =>
    simp only [apply, step] at hget
    rw [(onPlayerLogin_levels t p).1] at hget
    exact h c l hget
  | onPlayerDisconnect p token =>
    simp only [apply, step] at hget
    rw [(onPlayerDisconnect_levels t p token).1] at hget
    exact h c l hget
  | evict u token =>
    simp only [apply, step] at hget
    rw [(evict_levels t u token).1] at hget
    exact h c l hget

theorem run_keeps_levels_nonnegative (ops : List Op) :
    ∀ t : PlaygroundAccessTracker, (∀ op ∈ ops, op.levelIsNonnegative = true) →
      (∀ c l, JsMap.get t.commandLevels_ c = some l → 0 ≤ l) →
      ∀ c l, JsMap.get (t.run ops).commandLevels_ c = some l → 0 ≤ l := by
  induction ops with
  | nil =>
    intro t _ h
    exact h
  | cons op ops ih =>
    intro t hops h
    exact ih (t.apply op) (fun o ho => hops o (List.mem_cons_of_mem _ ho))
      (apply_keeps_levels_nonnegative t op (hops op (List.mem_cons_self _ _)) h)

/-- C12, as amended: in every state reached from a new tracker by calls that pass only
levels of at least 0 to `registerCommand` and `setCommandLevel`, the current level of
every registered command is at least 0. -/
theorem current_levels_nonnegative (ops : List Op)
    (hops : ∀ op ∈ ops, op.levelIsNonnegative = true) (command : String) (level : Int)
    (hlevel : (PlaygroundAccessTracker.new.run ops).getCommandLevel command = .ok level) :
    0 ≤ level :=
  run_keeps_levels_nonnegative ops PlaygroundAccessTracker.new hops
    (fun _ _ h => by cases h) command level (getCommandLevel_eq_ok.mp hlevel)

/-- An instance of `current_levels_nonnegative`: `c` is registered with level 2 and set
to level 0. -/
theorem current_levels_nonnegative_witness :
    (∀ op ∈ [Op.registerCommand "c" 2, .setCommandLevel "c" 0],
      op.levelIsNonnegative = true) ∧
    (PlaygroundAccessTracker.new.run
      [.registerCommand "c" 2, .setCommandLevel "c" 0]).getCommandLevel "c" = .ok 0 ∧
    (0 : Int) ≤ 0 :=
  ⟨by decide, rfl,
    current_levels_nonnegative [.registerCommand "c" 2, .setCommandLevel "c" 0]
      (by decide) "c" 0 rfl⟩

/-- C12, as stated, fails: `registerCommand("c", -1)` and `setCommandLevel("c", -2)` are
accepted, and the current level of the registered command `c` is then below 0. -/
theorem current_level_negative :
    (PlaygroundAccessTracker.new.run [.registerCommand "c" (-1)]).getCommandLevel "c"
      = .ok (-1) ∧
    (PlaygroundAccessTracker.new.run
      [.registerCommand "c" 2, .setCommandLevel "c" (-2)]).getCommandLevel "c" = .ok (-2) ∧
    ¬ (∀ (ops : List Op) (command : String) (level : Int),
      (PlaygroundAccessTracker.new.run ops).getCommandLevel command = .ok level →
        0 ≤ level) := by
  refine ⟨rfl, rfl, fun h => ?_⟩
  have := h [.registerCommand "c" (-1)] "c" (-1) rfl
  omega

end PlaygroundAccessTracker

/-! ## Players without a registered account, and notifications -/

namespace PlaygroundAccessTracker

/-- C13: for a player whose account is not registered, `addException` and
`removeException` throw, whether or not a source player is given, and the state with its
exception table and its log of sent messages stays what it was; `hasException` answers
false for every command. -/
theorem unregistered_player_is_refused (t : PlaygroundAccessTracker) (command : String)
    (player : Player) (sourcePlayer : Option Player)
    (hguest : player.account.isRegistered = false) :
    t.addException command player sourcePlayer = .error (notRegisteredError player) ∧
    t.removeException command player sourcePlayer = .error (notRegisteredError player) ∧
    t.apply (.addException command player sourcePlayer) = t ∧
    t.apply (.removeException command player sourcePlayer) = t ∧
    (t.apply (.addException command player sourcePlayer)).exceptions_ = t.exceptions_ ∧
    (t.apply (.addException command player sourcePlayer)).sent = t.sent ∧
    (t.apply (.removeException command player sourcePlayer)).sent = t.sent ∧
    ∀ other, t.hasException other player = false := by
  have hadd : t.addException command player sourcePlayer
      = .error (notRegisteredError player) := by
    simp [addException, hguest]
  have hremove : t.removeException command player sourcePlayer
      = .error (notRegisteredError player) := by
    simp [removeException, hguest]
  have happly1 : t.apply (.addException command player sourcePlayer) = t := by
    simp [apply, step, hadd]
  have happly2 : t.apply (.removeException command player sourcePlayer) = t := by
    simp [apply, step, hremove]
  refine ⟨hadd, hremove, happly1, happly2, ?_, ?_, ?_, fun other => ?_⟩
  · rw [happly1]
  · rw [happly1]
  · rw [happly2]
  · simp [hasException, hguest]

/-- An instance of `unregistered_player_is_refused`: `guntherAsGuest` in `granted`. -/
theorem unregistered_player_is_refused_witness :
    guntherAsGuest.account.isRegistered = false ∧
    granted.addException "d" guntherAsGuest (some russell)
      = .error "Player Gunther (Id:0) is not registered." ∧
    granted.removeException "c" guntherAsGuest (some russell)
      = .error "Player Gunther (Id:0) is not registered." ∧
    granted.hasException "c" guntherAsGuest = false :=
  have h := unregistered_player_is_refused granted
  ⟨rfl, (h "d" guntherAsGuest (some russell) rfl).1,
    (h "c" guntherAsGuest (some russell) rfl).2.1,
    (h "c" guntherAsGuest (some russell) rfl).2.2.2.2.2.2.2 "c"⟩

/-- For a registered player `addException` sends exactly the grant notification when a
source player is given and nothing otherwise. -/
theorem addException_sent (t : PlaygroundAccessTracker) (command : String)
    (player : Player) (hreg : player.account.isRegistered = true) :
    (∀ source : Player, ∃ t1, t.addException command player (some source) = .ok t1 ∧
      t1.sent = t.sent ++
        [(player.ref, Message.LVP_CMD_EXCEPTION_GRANTED source.name source.id command)]) ∧
    (∃ t1, t.addException command player none = .ok t1 ∧ t1.sent = t.sent) := by
  constructor
  · intro source
    unfold addException
    simp [hreg]
  · unfold addException
    simp [hreg]

/-- For a registered player who has an exception set, `removeException` sends exactly the
revocation notification when a source player is given; without a source player it sends
nothing. -/
theorem removeException_sent (t : PlaygroundAccessTracker) (command : String)
    (player : Player) (hreg : player.account.isRegistered = true) :
    (∀ (source : Player) (exceptions : JsSet String),
      JsMap.get t.exceptions_ player.ref = some exceptions →
      ∃ t1, t.removeException command player (some source) = .ok t1 ∧
        t1.sent = t.sent ++
          [(player.ref, Message.LVP_CMD_EXCEPTION_REVOKED source.name source.id command)]) ∧
    (∃ t1, t.removeException command player none = .ok t1 ∧ t1.sent = t.sent) := by
  constructor
  · intro source exceptions hheld
    unfold removeException
    simp [hreg, hheld]
  · unfold removeException
    cases hheld : JsMap.get t.exceptions_ player.ref <;> simp [hreg]

/-- C14 fails on the code: `russell` is registered and has no exception set in `granted`;
`removeException("c", russell, gunther)` returns normally, leaves the state as it was and
sends `russell` no revocation notification. -/
theorem removeException_without_set_sends_nothing :
    russell.account.isRegistered = true ∧
    JsMap.get granted.exceptions_ russell.ref = none ∧
    granted.removeException "c" russell (some gunther) = .ok granted ∧
    (granted.apply (.removeException "c" russell (some gunther))).sent = granted.sent ∧
    (russell.ref, Message.LVP_CMD_EXCEPTION_REVOKED gunther.name gunther.id "c")
      ∉ (granted.apply (.removeException "c" russell (some gunther))).sent :=
  ⟨rfl, rfl, rfl, rfl, by decide⟩

end PlaygroundAccessTracker

/-! ## Disconnecting, changing a level, registering twice -/

namespace JsMap

variable {κ ν : Type} [DecidableEq κ]

theorem keys_set_of_get (m : JsMap κ ν) {k : κ} (v : ν) {old : ν}
    (h : get m k = some old) :
    (set m k v).map (fun e => e.1) = m.map (fun e => e.1) := by
  induction m with
  | nil => cases h
  | cons e rest ih =>
    obtain ⟨k1, v1⟩ := e
    by_cases hk : k1 = k
    · simp [set, hk]
    · have hrest : get rest k = some old := by simpa [get, hk] using h
      simp [set, hk, ih hrest]

end JsMap

namespace PlaygroundAccessTracker

/-- The effect of `onPlayerDisconnect(player)`: it always leaves the player without a live exception
set and touches no other live set. When the player held a non-empty set, the set is
stored in the cache under the user id `userIds_` has for the player, the drawn token is
stored under the same user id, and one eviction holding that user id and token is
scheduled after 300000 ms. When the player had no set or an empty one, the cache, the
tokens and the scheduled evictions are what they were. -/
theorem onPlayerDisconnect_caches_iff_held (t : PlaygroundAccessTracker) (player : Player)
    (token : Nat) :
    JsMap.get (t.onPlayerDisconnect player token).exceptions_ player.ref = none ∧
    (∀ ref, ref ≠ player.ref →
      JsMap.get (t.onPlayerDisconnect player token).exceptions_ ref
        = JsMap.get t.exceptions_ ref) ∧
    (∀ exceptions, JsMap.get t.exceptions_ player.ref = some exceptions →
      JsSet.size exceptions ≠ 0 →
      (t.onPlayerDisconnect player token).cachedExceptions_
        = JsMap.set t.cachedExceptions_ (JsMap.get t.userIds_ player.ref).join exceptions ∧
      (t.onPlayerDisconnect player token).cachedExceptionsToken_
        = JsMap.set t.cachedExceptionsToken_ (JsMap.get t.userIds_ player.ref).join token ∧
      JsMap.get (t.onPlayerDisconnect player token).cachedExceptions_
        (JsMap.get t.userIds_ player.ref).join = some exceptions ∧
      JsMap.get (t.onPlayerDisconnect player token).cachedExceptionsToken_
        (JsMap.get t.userIds_ player.ref).join = some token ∧
      (t.onPlayerDisconnect player token).timers
        = t.timers ++ [Timer.mk 300000 (JsMap.get t.userIds_ player.ref).join token]) ∧
    ((JsMap.get t.exceptions_ player.ref = none ∨
        ∃ exceptions, JsMap.get t.exceptions_ player.ref = some exceptions ∧
          JsSet.size exceptions = 0) →
      (t.onPlayerDisconnect player token).cachedExceptions_ = t.cachedExceptions_ ∧
      (t.onPlayerDisconnect player token).cachedExceptionsToken_
        = t.cachedExceptionsToken_ ∧
      (t.onPlayerDisconnect player token).timers = t.timers) := by
  refine ⟨?_, fun ref href => ?_, fun exceptions hheld hsize => ?_, ?_⟩
  · cases hheld : JsMap.get t.exceptions_ player.ref with
    | none =>
      rw [onPlayerDisconnect_of_none token hheld]
      exact hheld
    | some exceptions =>
      by_cases hsize : JsSet.size exceptions = 0
      · rw [onPlayerDisconnect_of_empty token hheld hsize]
        exact JsMap.get_delete_self _ _
      · rw [onPlayerDisconnect_of_held token hheld hsize]
        exact JsMap.get_delete_self _ _
  · cases hheld : JsMap.get t.exceptions_ player.ref with
    | none => rw [onPlayerDisconnect_of_none token hheld]
    | some exceptions =>
      by_cases hsize : JsSet.size exceptions = 0
      · rw [onPlayerDisconnect_of_empty token hheld hsize]
        exact JsMap.get_delete_other _ (Ne.symm href)
      · rw [onPlayerDisconnect_of_held token hheld hsize]
        exact JsMap.get_delete_other _ (Ne.symm href)
  · rw [onPlayerDisconnect_of_held token hheld hsize]
    exact ⟨rfl, rfl, JsMap.get_set_self _ _ _, JsMap.get_set_self _ _ _, rfl⟩
  · rintro (hnone | ⟨exceptions, hheld, hsize⟩)
    · rw [onPlayerDisconnect_of_none token hnone]
      exact ⟨rfl, rfl, rfl⟩
    · rw [onPlayerDisconnect_of_empty token hheld hsize]
      exact ⟨rfl, rfl, rfl⟩

/-- An instance of `onPlayerDisconnect_caches_iff_held`: `gunther`, who holds `c` in
`granted`, and `russell`, who holds nothing, disconnect. -/
theorem onPlayerDisconnect_caches_iff_held_witness :
    JsMap.get granted.exceptions_ gunther.ref = some ["c"] ∧
    JsSet.size ["c"] ≠ 0 ∧
    (granted.onPlayerDisconnect gunther 5).timers
      = granted.timers ++ [Timer.mk 300000 (JsMap.get granted.userIds_ gunther.ref).join 5] ∧
    JsMap.get granted.exceptions_ russell.ref = none ∧
    (granted.onPlayerDisconnect russell 6).cachedExceptions_ = granted.cachedExceptions_ ∧
    (granted.onPlayerDisconnect russell 6).timers = granted.timers :=
  have h1 := (onPlayerDisconnect_caches_iff_held granted gunther 5).2.2.1 ["c"] rfl
    (by decide)
  have h2 := (onPlayerDisconnect_caches_iff_held granted russell 6).2.2.2 (Or.inl rfl)
  ⟨rfl, by decide, h1.2.2.2.2, rfl, h2.1, h2.2.2⟩

/-- C17: `setCommandLevel(command, level)`, whether it succeeds or throws, leaves every
live exception set as it was: `hasException` and `getExceptions` answer the same before
and after, for every command and player. -/
theorem setCommandLevel_keeps_exceptions (t : PlaygroundAccessTracker) (command : String)
    (level : Int) :
    (∀ t1, t.setCommandLevel command level = .ok t1 →
      t1.exceptions_ = t.exceptions_ ∧
      (∀ other player, t1.hasException other player = t.hasException other player) ∧
      (∀ other, t1.getExceptions other = t.getExceptions other) ∧
      (∀ other, t1.getExceptionCount other = t.getExceptionCount other)) ∧
    (t.apply (.setCommandLevel command level)).exceptions_ = t.exceptions_ ∧
    (∀ other player,
      (t.apply (.setCommandLevel command level)).hasException other player
        = t.hasException other player) ∧
    (∀ other,
      (t.apply (.setCommandLevel command level)).getExceptions other
        = t.getExceptions other) := by
  have hok : ∀ t1, t.setCommandLevel command level = .ok t1 →
      t1.exceptions_ = t.exceptions_ := by
    intro t1 h
    rw [setCommandLevel_frame h]
  have happly : (t.apply (.setCommandLevel command level)).exceptions_ = t.exceptions_ := by
    simp only [apply, step]
    cases hr : t.setCommandLevel command level with
    | error e => rfl
    | ok t1 => exact hok t1 hr
  refine ⟨fun t1 h => ⟨hok t1 h, fun other player => ?_, fun other => ?_, fun other => ?_⟩,
    happly, fun other player => ?_, fun other => ?_⟩
  · simp only [hasException, hok t1 h]
  · simp only [getExceptions, hok t1 h]
  · simp only [getExceptionCount, getExceptions, hok t1 h]
  · simp only [hasException, happly]
  · simp only [getExceptions, happly]

/-- An instance of `setCommandLevel_keeps_exceptions`: the level of `c` drops to 0 in
`granted`, where `gunther` holds an exception for `c`; he keeps it. -/
theorem setCommandLevel_keeps_exceptions_witness :
    (∃ t1, granted.setCommandLevel "c" 0 = .ok t1 ∧
      t1.hasException "c" gunther = true ∧ t1.getExceptions "c" = [gunther.ref]) :=
  ⟨_, rfl,
    ((setCommandLevel_keeps_exceptions granted "c" 0).1 _ rfl).2.1 "c" gunther,
    ((setCommandLevel_keeps_exceptions granted "c" 0).1 _ rfl).2.2.1 "c"⟩

/-- C18, as amended: `registerCommand(command, level)` on a tracker where the command is
already registered does not fail; it replaces the default and the current level of the
command by `level`, keeps the commands of both level tables and their order, and leaves
the live exception sets as they were. -/
theorem registerCommand_again_replaces (t : PlaygroundAccessTracker) (command : String)
    (current default level : Int)
    (hcurrent : t.getCommandLevel command = .ok current)
    (hdefault : t.getDefaultCommandLevel command = .ok default) :
    t.step (.registerCommand command level) = .ok (t.registerCommand command level) ∧
    (t.registerCommand command level).getCommandLevel command = .ok level ∧
    (t.registerCommand command level).getDefaultCommandLevel command = .ok level ∧
    (t.registerCommand command level).commandLevels_.map (fun e => e.1)
      = t.commandLevels_.map (fun e => e.1) ∧
    (t.registerCommand command level).commandLevelDefaults_.map (fun e => e.1)
      = t.commandLevelDefaults_.map (fun e => e.1) ∧
    (t.registerCommand command level).exceptions_ = t.exceptions_ := by
  refine ⟨rfl, ?_, ?_, ?_, ?_, rfl⟩
  · simp [getCommandLevel, registerCommand, JsMap.get_set_self]
  · simp [getDefaultCommandLevel, registerCommand, JsMap.get_set_self]
  · exact JsMap.keys_set_of_get _ _ (getCommandLevel_eq_ok.mp hcurrent)
  · have h : JsMap.get t.commandLevelDefaults_ command = some default := by
      unfold getDefaultCommandLevel at hdefault
      cases hget : JsMap.get t.commandLevelDefaults_ command with
      | none => simp [hget] at hdefault
      | some v =>
        simp [hget] at hdefault
        rw [hdefault]
    exact JsMap.keys_set_of_get _ _ h

/-- An instance of `registerCommand_again_replaces`: `c`, registered with level 2 in
`granted`, is registered again with level 0. -/
theorem registerCommand_again_replaces_witness :
    granted.getCommandLevel "c" = .ok 2 ∧
    granted.getDefaultCommandLevel "c" = .ok 2 ∧
    granted.step (.registerCommand "c" 0) = .ok (granted.registerCommand "c" 0) ∧
    (granted.registerCommand "c" 0).getCommandLevel "c" = .ok 0 ∧
    (granted.registerCommand "c" 0).getDefaultCommandLevel "c" = .ok 0 :=
  have h := registerCommand_again_replaces granted "c" 2 2 0 rfl rfl
  ⟨rfl, rfl, h.1, h.2.1, h.2.2.1⟩

/-- C18, as stated, fails: `c` is registered with level 2 in `granted`; registering it
again with level 0 returns normally, and both the default and the current level of `c`
are then 0. -/
theorem registerCommand_again_is_accepted :
    granted.getCommandLevel "c" = .ok 2 ∧
    granted.getDefaultCommandLevel "c" = .ok 2 ∧
    (∃ t1, granted.step (.registerCommand "c" 0) = .ok t1 ∧
      t1.getCommandLevel "c" = .ok 0 ∧ t1.getDefaultCommandLevel "c" = .ok 0) ∧
    ¬ (∃ e, granted.step (.registerCommand "c" 0) = .error e) := by
  refine ⟨rfl, rfl, ⟨_, rfl, rfl, rfl⟩, ?_⟩
  rintro ⟨e, h⟩
  cases h

end PlaygroundAccessTracker

/-! ## The players holding an exception -/

namespace JsMap

variable {κ ν : Type} [DecidableEq κ]

theorem keys_set_nodup (m : JsMap κ ν) (k : κ) (v : ν)
    (h : (m.map (fun e => e.1)).Nodup) : ((set m k v).map (fun e => e.1)).Nodup := by
  induction m with
  | nil => simp [set]
  | cons e rest ih =>
    obtain ⟨k1, v1⟩ := e
    simp only [List.map_cons, List.nodup_cons] at h
    by_cases hk : k1 = k
    · subst hk
      simp only [set, if_true, List.map_cons, List.nodup_cons]
      exact h
    · simp only [set, hk, if_false, List.map_cons, List.nodup_cons]
      refine ⟨?_, ih h.2⟩
      intro hmem
      obtain ⟨⟨k2, v2⟩, hin, hk2⟩ := List.mem_map.mp hmem
      simp only at hk2
      subst hk2
      have hcases : (k2, v2) = (k, v) ∨ (k2, v2) ∈ rest := by
        clear ih h hmem
        induction rest with
        | nil =>
          simp only [set, List.mem_singleton] at hin
          exact Or.inl hin
        | cons e2 rest2 ih2 =>
          obtain ⟨k3, v3⟩ := e2
          by_cases h3 : k3 = k
          · simp only [set, h3, if_true, List.mem_cons] at hin
            rcases hin with hin | hin
            · exact Or.inl hin
            · exact Or.inr (List.mem_cons_of_mem _ hin)
          · simp only [set, h3, if_false, List.mem_cons] at hin
            rcases hin with hin | hin
            · exact Or.inr (by rw [hin]; exact List.mem_cons_self _ _)
            · rcases ih2 hin with h4 | h4
              · exact Or.inl h4
              · exact Or.inr (List.mem_cons_of_mem _ h4)
      rcases hcases with heq | hrest
      · cases heq
        exact hk rfl
      · exact h.1 (List.mem_map.mpr ⟨(k2, v2), hrest, rfl⟩)

theorem keys_delete_nodup (m : JsMap κ ν) (k : κ)
    (h : (m.map (fun e => e.1)).Nodup) : ((delete m k).map (fun e => e.1)).Nodup :=
  h.sublist ((List.filter_sublist m).map _)

theorem get_eq_some_of_mem (m : JsMap κ ν) {k : κ} {v : ν}
    (h : (m.map (fun e => e.1)).Nodup) (hmem : (k, v) ∈ m) : get m k = some v := by
  induction m with
  | nil => cases hmem
  | cons e rest ih =>
    obtain ⟨k1, v1⟩ := e
    simp only [List.map_cons, List.nodup_cons] at h
    rcases List.mem_cons.mp hmem with heq | hrest
    · cases heq
      simp [get]
    · have hk : k1 ≠ k := by
        intro hk
        subst hk
        exact h.1 (List.mem_map.mpr ⟨(k1, v), hrest, rfl⟩)
      simp only [get, hk, if_false]
      exact ih h.2 hrest

theorem mem_of_get_eq_some (m : JsMap κ ν) {k : κ} {v : ν} (h : get m k = some v) :
    (k, v) ∈ m := by
  induction m with
  | nil => cases h
  | cons e rest ih =>
    obtain ⟨k1, v1⟩ := e
    by_cases hk : k1 = k
    · subst hk
      simp only [get, if_true, Option.some.injEq] at h
      subst h
      exact List.mem_cons_self _ _
    · simp only [get, hk, if_false] at h
      exact List.mem_cons_of_mem _ (ih h)

end JsMap

namespace PlaygroundAccessTracker

/-- One call keeps the players of the live exception table distinct. -/
theorem apply_keeps_players_distinct (t : PlaygroundAccessTracker) (op : Op)
    (h : (t.exceptions_.map (fun e => e.1)).Nodup) :
    ((t.apply op).exceptions_.map (fun e => e.1)).Nodup := by
  cases op with
  | registerCommand c l => exact h
  | unregisterCommand c =>
    simp only [apply, step, unregisterCommand, List.map_map]
    exact h
  | dispose => exact List.nodup_nil
  | setCommandLevel c l =>
    simp only [apply, step]
    cases hr : t.setCommandLevel c l with
    | error e => exact h
    | ok t1 =>
      rw [setCommandLevel_frame hr]
      exact h
  | addException c p src =>
    simp only [apply, step]
    cases hr : t.addException c p src with
    | error e => exact h
    | ok t1 =>
      have hreg : p.account.isRegistered = true := by
        cases hp : p.account.isRegistered with
        | true => rfl
        | false => simp [addException, hp] at hr
      obtain ⟨t2, h2, -, he⟩ := addException_ok (t := t) c src hreg
      rw [hr] at h2
      cases h2
      simp only
      rw [he]
      exact JsMap.keys_set_nodup _ _ _ h
  | removeException c p src =>
    simp only [apply, step]
    cases hr : t.removeException c p src with
    | error e => exact h
    | ok t1 =>
      have hreg : p.account.isRegistered = true := by
        cases hp : p.account.isRegistered with
        | true => rfl
        | false => simp [removeException, hp] at hr
      obtain ⟨t2, h2, -, he⟩ := removeException_ok (t := t) c src hreg
      rw [hr] at h2
      cases h2
      simp only
      rw [he]
      cases JsMap.get t.exceptions_ p.ref with
      | none => exact h
      | some exceptions => exact JsMap.keys_set_nodup _ _ _ h
  | onPlayerLogin p =>
    simp only [apply, step]
    cases hc : JsMap.get t.cachedExceptions_ p.account.userId with
    | none =>
      rw [onPlayerLogin_of_not_cached hc]
      exact h
    | some cached =>
      rw [onPlayerLogin_of_cached hc]
      exact JsMap.keys_set_nodup _ _ _ h
  | onPlayerDisconnect p token =>
    simp only [apply, step]
    cases he : JsMap.get t.exceptions_ p.ref with
    | none =>
      rw [onPlayerDisconnect_of_none token he]
      exact h
    | some exceptions =>
      by_cases hs : JsSet.size exceptions = 0
      · rw [onPlayerDisconnect_of_empty token he hs]
        exact JsMap.keys_delete_nodup _ _ h
      · rw [onPlayerDisconnect_of_held token he hs]
        exact JsMap.keys_delete_nodup _ _ h
  | evict u token =>
    simp only [apply, step]
    by_cases ht : JsMap.get t.cachedExceptionsToken_ u = some token
    · rw [evict_of_eq ht]
      exact h
    · rw [evict_of_ne ht]
      exact h

theorem run_keeps_players_distinct (ops : List Op) :
    ∀ t : PlaygroundAccessTracker, (t.exceptions_.map (fun e => e.1)).Nodup →
      ((t.run ops).exceptions_.map (fun e => e.1)).Nodup := by
  induction ops with
  | nil =>
    intro t h
    exact h
  | cons op ops ih =>
    intro t h
    exact ih (t.apply op) (apply_keeps_players_distinct t op h)

theorem mem_getExceptions (t : PlaygroundAccessTracker) (command : String) (ref : Nat) :
    ref ∈ t.getExceptions command ↔
      ∃ exceptions, (ref, exceptions) ∈ t.exceptions_ ∧
        JsSet.has exceptions command = true := by
  unfold getExceptions
  simp only [List.mem_map, List.mem_filter]
  constructor
  · rintro ⟨⟨r, e⟩, ⟨hin, hhas⟩, rfl⟩
    exact ⟨e, hin, hhas⟩
  · rintro ⟨e, hin, hhas⟩
    exact ⟨(ref, e), ⟨hin, hhas⟩, rfl⟩

/-- C16: in every state reached from a new tracker, `getExceptions(command)` lists no
player twice and lists exactly the players whose live exception set holds the command;
a registered player is listed exactly when `hasException(command, player)` is true, and
`getExceptionCount(command)` is the length of the list. -/
theorem getExceptions_lists_holders (ops : List Op) (command : String) :
    ((PlaygroundAccessTracker.new.run ops).getExceptions command).Nodup ∧
    (∀ ref, ref ∈ (PlaygroundAccessTracker.new.run ops).getExceptions command ↔
      ∃ exceptions,
        JsMap.get (PlaygroundAccessTracker.new.run ops).exceptions_ ref = some exceptions ∧
          JsSet.has exceptions command = true) ∧
    (∀ player : Player, player.account.isRegistered = true →
      (player.ref ∈ (PlaygroundAccessTracker.new.run ops).getExceptions command ↔
        (PlaygroundAccessTracker.new.run ops).hasException command player = true)) ∧
    (PlaygroundAccessTracker.new.run ops).getExceptionCount command
      = ((PlaygroundAccessTracker.new.run ops).getExceptions command).length := by
  have hnodup := run_keeps_players_distinct ops PlaygroundAccessTracker.new List.nodup_nil
  have hiff : ∀ ref, ref ∈ (PlaygroundAccessTracker.new.run ops).getExceptions command ↔
      ∃ exceptions,
        JsMap.get (PlaygroundAccessTracker.new.run ops).exceptions_ ref = some exceptions ∧
          JsSet.has exceptions command = true := by
    intro ref
    rw [mem_getExceptions]
    constructor
    · rintro ⟨e, hin, hhas⟩
      exact ⟨e, JsMap.get_eq_some_of_mem _ hnodup hin, hhas⟩
    · rintro ⟨e, hget, hhas⟩
      exact ⟨e, JsMap.mem_of_get_eq_some _ hget, hhas⟩
  refine ⟨?_, hiff, fun player hreg => ?_, rfl⟩
  · unfold getExceptions
    exact hnodup.sublist ((List.filter_sublist _).map _)
  · rw [hiff, hasException_of_registered command hreg]

/-- An instance of `getExceptions_lists_holders`: after `c` was granted to `gunther`,
who is registered, he is the one player listed for `c`. -/
theorem getExceptions_lists_holders_witness :
    gunther.account.isRegistered = true ∧
    (gunther.ref ∈ (PlaygroundAccessTracker.new.run [.registerCommand "c" 2,
        .onPlayerLogin gunther, .addException "c" gunther none]).getExceptions "c" ↔
      (PlaygroundAccessTracker.new.run [.registerCommand "c" 2, .onPlayerLogin gunther,
        .addException "c" gunther none]).hasException "c" gunther = true) :=
  ⟨rfl, (getExceptions_lists_holders [.registerCommand "c" 2, .onPlayerLogin gunther,
    .addException "c" gunther none] "c").2.2.1 gunther rfl⟩

end PlaygroundAccessTracker

/-! ## The player database -/

namespace PlayerDatabase

theorem supported_tables :
    ∀ e ∈ getSupportedFields, e.2.table = "users" ∨ e.2.table = "users_mutable" := by
  simp [getSupportedFields]

theorem getPlayerFieldQuery_queries (database : Database) (nickname fieldName : String)
    (field : Field) :
    (_getPlayerFieldQuery database nickname fieldName field).queries
      = [{ text := getPlayerFieldQueryText fieldName field.table,
           params := [.text nickname] }] := by
  unfold _getPlayerFieldQuery
  simp only
  split
  · rfl
  · split
    · rfl
    · split <;> rfl

theorem updatePlayerFieldQuery_queries (database : Database)
    (nickname table column : String) (value : JsValue) :
    (_updatePlayerFieldQuery database nickname table column value).queries
      = [{ text := updatePlayerFieldQueryText table column,
           params := [value, .text nickname] }] := by
  unfold _updatePlayerFieldQuery
  simp only
  split
  · rfl
  · split <;> rfl

theorem getPlayerField_queries (database : Database) (nickname fieldName : String)
    (field : Field) (h : JsMap.get getSupportedFields fieldName = some field) :
    (getPlayerField database nickname fieldName).queries
      = [{ text := getPlayerFieldQueryText fieldName field.table,
           params := [.text nickname] }] := by
  unfold getPlayerField
  simp only [h]
  rw [← getPlayerFieldQuery_queries database nickname fieldName field]
  split <;> rfl

theorem updatePlayerField_queries (database : Database)
    (nickname fieldName value : String) (field : Field)
    (h : JsMap.get getSupportedFields fieldName = some field) :
    ∀ q ∈ (updatePlayerField database nickname fieldName value).queries,
      q.text = updatePlayerFieldQueryText field.table fieldName := by
  intro q hq
  unfold updatePlayerField at hq
  simp only [h] at hq
  split at hq
  · unfold _updateNumericPlayerField at hq
    simp only at hq
    split at hq
    · cases hq
    · rw [updatePlayerFieldQuery_queries] at hq
      rw [List.mem_singleton.mp hq]
  · split at hq
    · unfold _updateStringPlayerField at hq
      simp only at hq
      split at hq
      · cases hq
      · rw [updatePlayerFieldQuery_queries] at hq
        rw [List.mem_singleton.mp hq]
    · split at hq <;> cases hq

/-- C19: for a `fieldName` that is not an own key of `getSupportedFields()`,
`getPlayerField` and `updatePlayerField` throw without having issued a query. Every query
either of them issues has, as its text, the template filled with a key of the hard-coded
list as column and the table listed for that key, and that table is `users` or
`users_mutable`. -/
theorem unknown_field_throws_before_any_query (database : Database)
    (nickname fieldName value : String) :
    (JsMap.has getSupportedFields fieldName = false →
      (getPlayerField database nickname fieldName).queries = [] ∧
      (getPlayerField database nickname fieldName).result
        = .error (fieldName ++ " is not a field known to me. Please check !supported.") ∧
      (updatePlayerField database nickname fieldName value).queries = [] ∧
      (updatePlayerField database nickname fieldName value).result
        = .error (fieldName ++ " is not a field known to me. Please check !supported.")) ∧
    (∀ q ∈ (getPlayerField database nickname fieldName).queries,
      ∃ field, (fieldName, field) ∈ getSupportedFields ∧
        q.text = getPlayerFieldQueryText fieldName field.table ∧
        (field.table = "users" ∨ field.table = "users_mutable")) ∧
    (∀ q ∈ (updatePlayerField database nickname fieldName value).queries,
      ∃ field, (fieldName, field) ∈ getSupportedFields ∧
        q.text = updatePlayerFieldQueryText field.table fieldName ∧
        (field.table = "users" ∨ field.table = "users_mutable")) := by
  refine ⟨fun hnone => ?_, fun q hq => ?_, fun q hq => ?_⟩
  · have hget : JsMap.get getSupportedFields fieldName = none := by
      simpa [JsMap.has] using hnone
    simp [getPlayerField, updatePlayerField, hget, unknownFieldError]
  · cases hget : JsMap.get getSupportedFields fieldName with
    | none =>
      simp [getPlayerField, hget] at hq
    | some field =>
      have hmem := JsMap.mem_of_get_eq_some _ hget
      rw [getPlayerField_queries database nickname fieldName field hget] at hq
      exact ⟨field, hmem, by rw [List.mem_singleton.mp hq], supported_tables _ hmem⟩
  · cases hget : JsMap.get getSupportedFields fieldName with
    | none =>
      simp [updatePlayerField, hget] at hq
    | some field =>
      have hmem := JsMap.mem_of_get_eq_some _ hget
      exact ⟨field, hmem, updatePlayerField_queries database nickname fieldName value field
        hget q hq, supported_tables _ hmem⟩

/-- An instance of `unknown_field_throws_before_any_query`: `password` is not a
supported field, and the query that reads `level` names the table `users`. -/
theorem unknown_field_throws_before_any_query_witness :
    JsMap.has getSupportedFields "password" = false ∧
    (getPlayerField obligingDatabase "Gunther" "password").queries = [] ∧
    (updatePlayerField obligingDatabase "Gunther" "password" "secret").queries = [] ∧
    (∀ q ∈ (getPlayerField obligingDatabase "Gunther" "level").queries,
      ∃ field, ("level", field) ∈ getSupportedFields ∧
        q.text = getPlayerFieldQueryText "level" field.table ∧
        (field.table = "users" ∨ field.table = "users_mutable")) :=
  have h := unknown_field_throws_before_any_query obligingDatabase "Gunther" "password"
    "secret"
  ⟨rfl, (h.1 rfl).1, (h.1 rfl).2.2.1,
    (unknown_field_throws_before_any_query obligingDatabase "Gunther" "level" "").2.1⟩

/-- When `parseInt` reads the integer `n`, `_updateNumericPlayerField` throws exactly when
`n` is outside -2147483647 ... 2147483646, and otherwise issues the one query that writes
`n`. -/
theorem updateNumericPlayerField_of_number (database : Database)
    (nickname table column value : String) (n : Int) (h : parseInt value = some n) :
    ((n ≤ -2147483648 ∨ n ≥ 2147483647) →
      (_updateNumericPlayerField database nickname table column value).queries = [] ∧
      (_updateNumericPlayerField database nickname table column value).result
        = .error "Numeric values must be between -2147483647 and 2147483646.") ∧
    ((-2147483647 ≤ n ∧ n ≤ 2147483646) →
      (_updateNumericPlayerField database nickname table column value).queries
        = [{ text := updatePlayerFieldQueryText table column,
             params := [.number (some n), .text nickname] }]) := by
  constructor
  · intro hout
    have : (decide (n ≤ -2147483648) || decide (n ≥ 2147483647)) = true := by
      rcases hout with h1 | h1 <;> simp [h1]
    simp [_updateNumericPlayerField, h, this]
  · intro hin
    have : (decide (n ≤ -2147483648) || decide (n ≥ 2147483647)) = false := by
      have h1 : ¬ n ≤ -2147483648 := by omega
      have h2 : ¬ n ≥ 2147483647 := by omega
      simp [h1, h2]
    unfold _updateNumericPlayerField
    simp only [h, this]
    exact updatePlayerFieldQuery_queries _ _ _ _ _

/-- C20 fails on the code: for the value `abc`, whose base-10 parse is `NaN`,
`_updateNumericPlayerField` does not throw; it issues the query that writes `NaN` and,
the database reporting an affected row, returns `NaN`. The same happens through
`updatePlayerField` for the numeric field `kill_count`. -/
theorem updateNumericPlayerField_writes_NaN :
    parseInt "abc" = none ∧
    (_updateNumericPlayerField obligingDatabase "Gunther" "users_mutable" "kill_count"
      "abc").queries
      = [{ text := updatePlayerFieldQueryText "users_mutable" "kill_count",
           params := [.number none, .text "Gunther"] }] ∧
    (_updateNumericPlayerField obligingDatabase "Gunther" "users_mutable" "kill_count"
      "abc").result = .ok (.number none) ∧
    (updatePlayerField obligingDatabase "Gunther" "kill_count" "abc").queries
      = [{ text := updatePlayerFieldQueryText "users_mutable" "kill_count",
           params := [.number none, .text "Gunther"] }] ∧
    (updatePlayerField obligingDatabase "Gunther" "kill_count" "abc").result
      = .ok (.number none) :=
  ⟨by decide, rfl, rfl, rfl, rfl⟩

end PlayerDatabase

/-! ## Textual values and the database salt -/

namespace PlayerDatabase

/-- `_updateStringPlayerField` issues its query for a value of fewer than 64 UTF-16 code
units and throws, without a query, for a value of 64 or more. -/
theorem updateStringPlayerField_by_length (database : Database)
    (nickname table column value : String) :
    (utf16Length value < 64 →
      (_updateStringPlayerField database nickname table column value).queries
        = [{ text := updatePlayerFieldQueryText table column,
             params := [.text value, .text nickname] }]) ∧
    (utf16Length value ≥ 64 →
      (_updateStringPlayerField database nickname table column value).queries = [] ∧
      (_updateStringPlayerField database nickname table column value).result
        = .error "Textual values must not be longer than 64 characters in length.") := by
  constructor
  · intro h
    have hnot : ¬ utf16Length value ≥ 64 := by omega
    unfold _updateStringPlayerField
    simp only [hnot, if_false]
    exact updatePlayerFieldQuery_queries _ _ _ _ _
  · intro h
    unfold _updateStringPlayerField
    simp [h]

/-- C21 fails on the code: a value of exactly 64 characters is not longer than 64
characters, yet `_updateStringPlayerField` throws 'Textual values must not be longer than
64 characters in length.' for it and issues no query; the same happens through
`updatePlayerField` for the textual field `death_message`. -/
theorem updateStringPlayerField_rejects_64 :
    utf16Length sixtyFourLetters = 64 ∧
    sixtyFourLetters.length = 64 ∧
    (_updateStringPlayerField obligingDatabase "Gunther" "users_mutable" "death_message"
      sixtyFourLetters).queries = [] ∧
    (_updateStringPlayerField obligingDatabase "Gunther" "users_mutable" "death_message"
      sixtyFourLetters).result
      = .error "Textual values must not be longer than 64 characters in length." ∧
    (updatePlayerField obligingDatabase "Gunther" "death_message" sixtyFourLetters).result
      = .error "Textual values must not be longer than 64 characters in length." :=
  ⟨by decide, by decide, rfl, rfl, rfl⟩

/-- C22: for every value `random` of the random source with 0 <= random < 1, whatever
the rounding of the product to a double does (as long as it keeps the order and leaves
the integers 0 and 899999999 in place), `generateDatabaseSalt` returns an integer between
100000000 and 999999999; computed exactly, the salt is at most 999999998. -/
theorem generateDatabaseSalt_range (fl : ℚ → ℚ) (random : ℚ)
    (hmono : Monotone fl) (hzero : fl 0 = 0) (htop : fl 899999999 = 899999999)
    (hlow : 0 ≤ random) (hhigh : random < 1) :
    100000000 ≤ generateDatabaseSalt fl random ∧
    generateDatabaseSalt fl random ≤ 999999999 ∧
    generateDatabaseSalt id random ≤ 999999998 := by
  have hprod0 : (0 : ℚ) ≤ random * (999999999 - 100000000) := by
    apply mul_nonneg hlow
    norm_num
  have hprod1 : random * (999999999 - 100000000) ≤ (899999999 : ℚ) := by
    nlinarith
  have hprod2 : random * (999999999 - 100000000) < (899999999 : ℚ) := by
    nlinarith
  have h0 : (0 : ℚ) ≤ fl (random * (999999999 - 100000000)) := by
    rw [← hzero]
    exact hmono hprod0
  have h1 : fl (random * (999999999 - 100000000)) ≤ (899999999 : ℚ) := by
    rw [← htop]
    exact hmono hprod1
  have hf0 : (0 : ℤ) ≤ ⌊fl (random * (999999999 - 100000000))⌋ := Int.floor_nonneg.mpr h0
  have hf1 : ⌊fl (random * (999999999 - 100000000))⌋ ≤ (899999999 : ℤ) := by
    have : ((⌊fl (random * (999999999 - 100000000))⌋ : ℤ) : ℚ) ≤ ((899999999 : ℤ) : ℚ) := by
      refine le_trans (Int.floor_le _) ?_
      exact_mod_cast h1
    exact_mod_cast this
  have hf2 : ⌊id (random * (999999999 - 100000000))⌋ < (899999999 : ℤ) := by
    rw [Int.floor_lt]
    exact_mod_cast hprod2
  unfold generateDatabaseSalt
  refine ⟨by omega, by omega, by omega⟩

/-- An instance of `generateDatabaseSalt_range`: exact arithmetic and the value 1/2. -/
theorem generateDatabaseSalt_range_witness :
    Monotone (id : ℚ → ℚ) ∧ (0 : ℚ) ≤ 1 / 2 ∧ (1 / 2 : ℚ) < 1 ∧
    100000000 ≤ generateDatabaseSalt id (1 / 2) ∧
    generateDatabaseSalt id (1 / 2) ≤ 999999999 ∧
    generateDatabaseSalt id (1 / 2) ≤ 999999998 :=
  ⟨monotone_id, by norm_num, by norm_num,
    generateDatabaseSalt_range id (1 / 2) monotone_id rfl rfl (by norm_num) (by norm_num)⟩

end PlayerDatabase

/-! ## Building and dispatching commands -/

namespace RaceCommands

open Commands

/-- C23: with the command tree the constructor of `RaceCommands` builds, and every node
allowed for the caller, `/race 5` is dispatched to `raceStart` with the parsed number 5
as its argument and `/race` to `raceOverview` without arguments, whatever the identity
resolver and the policy for left-over tokens are. -/
theorem race_dispatch (canAccess : CommandDescription RaceListener → Bool)
    (resolveIdentity : String → Option Nat) (strict : Bool)
    (hallowed : ∀ node, canAccess node = true) :
    dispatch (constructor { commands := [] }).commands canAccess resolveIdentity strict
      "/race 5" = .invoked .raceStart [.number 5] ∧
    dispatch (constructor { commands := [] }).commands canAccess resolveIdentity strict
      "/race" = .invoked .raceOverview [] ∧
    (dispatch (constructor { commands := [] }).commands canAccess resolveIdentity strict
      "/race 5").handled = true := by
  have hall : canAccess = fun _ => true := funext hallowed
  subst hall
  exact ⟨rfl, rfl, rfl⟩

/-- An instance of `race_dispatch`: every node allowed, no identities, strict. -/
theorem race_dispatch_witness :
    (∀ node : CommandDescription RaceListener, (fun _ => true) node = true) ∧
    dispatch (constructor { commands := [] }).commands (fun _ => true) (fun _ => none) true
      "/race 5" = .invoked .raceStart [.number 5] ∧
    dispatch (constructor { commands := [] }).commands (fun _ => true) (fun _ => none) true
      "/race" = .invoked .raceOverview [] :=
  have h := race_dispatch (fun _ => true) (fun _ => none) true (fun _ => rfl)
  ⟨fun _ => rfl, h.1, h.2.1⟩

end RaceCommands

namespace Commands

/-- C24: for every name, description text and listener, a builder created with the
prefix `/` on which `description(text)` and then `build(listener)` are called hands its
listener a description whose command is `/` followed by the name, whose command name is
the name, whose description is the text, whose listener is the one given, and which has
no parameters and no sub-commands. -/
theorem build_simple_command {η : Type} (name text : String) (listener : η) :
    ∃ d : CommandDescription η,
      (((CommandBuilder.new name "/").description text).build listener).delivered = some d ∧
      d.command = "/" ++ name ∧
      d.commandName = name ∧
      d.description = some text ∧
      d.listener = listener ∧
      d.parameters.length = 0 ∧
      d.subs.length = 0 :=
  ⟨.mk name "/" (some text) none [] listener [], rfl, rfl, rfl, rfl, rfl, rfl, rfl⟩

end Commands

namespace GangCommands

open Commands

/-- When `lhs` has more members than `rhs` the comparator answers 1: `lhs` is sorted after
`rhs`. -/
theorem gangsComparator_of_more_members (localeCompare : String → String → Int)
    (lhs rhs : Gang) (h : lhs.memberCount > rhs.memberCount) :
    gangsComparator localeCompare lhs rhs = 1 := by
  simp [gangsComparator, h]

/-- C25 fails on the code: the gang `B` has two members and the gang `A` has one, yet the
comparator answers 1 for (`B`, `A`), which sorts `B` after `A`, and for (`A`, `B`) it
answers what the comparison of the names `A` and `B` answers; no answer is negative for
(`B`, `A`), so the comparator does not place the gang with more members first. -/
theorem gangsComparator_places_larger_gang_last (localeCompare : String → String → Int) :
    ({ name := "B", memberCount := 2 } : Gang).memberCount
      > ({ name := "A", memberCount := 1 } : Gang).memberCount ∧
    gangsComparator localeCompare { name := "B", memberCount := 2 }
      { name := "A", memberCount := 1 } = 1 ∧
    ¬ (gangsComparator localeCompare { name := "B", memberCount := 2 }
      { name := "A", memberCount := 1 } < 0) ∧
    gangsComparator localeCompare { name := "A", memberCount := 1 }
      { name := "B", memberCount := 2 } = localeCompare "A" "B" := by
  refine ⟨by decide, rfl, ?_, rfl⟩
  show ¬ ((1 : Int) < 0)
  decide

/-- C26 fails on the code: after the constructor and `dispose()`, on a command manager
that had no commands, `pgangs` is no longer registered but `pgang` still is, whatever
the value of `Player.LEVEL_ADMINISTRATOR`. -/
theorem dispose_leaves_pgang (LEVEL_ADMINISTRATOR : Int) :
    (constructor LEVEL_ADMINISTRATOR { commands := [] }).hasCommand "pgang" = true ∧
    (constructor LEVEL_ADMINISTRATOR { commands := [] }).hasCommand "pgangs" = true ∧
    (dispose (constructor LEVEL_ADMINISTRATOR { commands := [] })).hasCommand "pgangs"
      = false ∧
    (dispose (constructor LEVEL_ADMINISTRATOR { commands := [] })).hasCommand "pgang"
      = true :=
  ⟨rfl, rfl, rfl, rfl⟩

end GangCommands

/-! ## The cache and its tokens; commands that are not registered -/

namespace JsMap

variable {κ ν : Type} [DecidableEq κ]

theorem isSome_get_set {μ : Type} (m : JsMap κ ν) (n : JsMap κ μ) (k u : κ) (v : ν) (w : μ)
    (h : (get m u).isSome = (get n u).isSome) :
    (get (set m k v) u).isSome = (get (set n k w) u).isSome := by
  by_cases hk : k = u
  · subst hk
    rw [get_set_self, get_set_self]
    rfl
  · rw [get_set_other m v hk, get_set_other n w hk]
    exact h

theorem isSome_get_delete {μ : Type} (m : JsMap κ ν) (n : JsMap κ μ) (k u : κ)
    (h : (get m u).isSome = (get n u).isSome) :
    (get (delete m k) u).isSome = (get (delete n k) u).isSome := by
  by_cases hk : k = u
  · subst hk
    rw [get_delete_self, get_delete_self]
    rfl
  · rw [get_delete_other m hk, get_delete_other n hk]
    exact h

end JsMap

namespace PlaygroundAccessTracker

/-- One call other than `dispose` keeps the cache and the token table on the same user
ids and keeps every cached set non-empty. -/
theorem apply_keeps_cache_paired (t : PlaygroundAccessTracker) (op : Op)
    (hop : op ≠ .dispose)
    (h : (∀ u, (JsMap.get t.cachedExceptions_ u).isSome
        = (JsMap.get t.cachedExceptionsToken_ u).isSome) ∧
      (∀ u e, JsMap.get t.cachedExceptions_ u = some e → JsSet.size e ≠ 0)) :
    (∀ u, (JsMap.get (t.apply op).cachedExceptions_ u).isSome
        = (JsMap.get (t.apply op).cachedExceptionsToken_ u).isSome) ∧
      (∀ u e, JsMap.get (t.apply op).cachedExceptions_ u = some e → JsSet.size e ≠ 0) := by
  cases op with
  | registerCommand c l => exact h
  | unregisterCommand c => exact h
  | dispose => exact absurd rfl hop
  | setCommandLevel c l =>
    simp only [apply, step]
    cases hr : t.setCommandLevel c l with
    | error e => exact h
    | ok t1 =>
      rw [setCommandLevel_frame hr]
      exact h
  | addException c p src =>
    simp only [apply, step]
    cases hr : t.addException c p src with
    | error e => exact h
    | ok t1 =>
      obtain ⟨-, -, e1, e2, -⟩ := addException_frame hr
      simp only [e1, e2]
      exact h
  | removeException c p src =>
    simp only [apply, step]
    cases hr : t.removeException c p src with
    | error e => exact h
    | ok t1 =>
      obtain ⟨-, -, e1, e2, -⟩ := removeException_frame hr
      simp only [e1, e2]
      exact h
  | onPlayerLogin p =>
    simp only [apply, step]
    cases hc : JsMap.get t.cachedExceptions_ p.account.userId with
    | none =>
      rw [onPlayerLogin_of_not_cached hc]
      exact h
    | some cached =>
      rw [onPlayerLogin_of_cached hc]
      exact ⟨fun u => JsMap.isSome_get_delete _ _ _ u (h.1 u),
        fun u e hget => h.2 u e (JsMap.get_delete_cases _ _ _ _ hget)⟩
  | onPlayerDisconnect p token =>
    simp only [apply, step]
    cases he : JsMap.get t.exceptions_ p.ref with
    | none =>
      rw [onPlayerDisconnect_of_none token he]
      exact h
    | some exceptions =>
      by_cases hs : JsSet.size exceptions = 0
      · rw [onPlayerDisconnect_of_empty token he hs]
        exact h
      · rw [onPlayerDisconnect_of_held token he hs]
        refine ⟨fun u => JsMap.isSome_get_set _ _ _ u _ _ (h.1 u), fun u e hget => ?_⟩
        rcases JsMap.get_set_cases _ _ _ _ _ hget with rfl | hold
        · exact hs
        · exact h.2 u e hold
  | evict k token =>
    simp only [apply, step]
    by_cases ht : JsMap.get t.cachedExceptionsToken_ k = some token
    · rw [evict_of_eq ht]
      exact ⟨fun u => JsMap.isSome_get_delete _ _ _ u (h.1 u),
        fun u e hget => h.2 u e (JsMap.get_delete_cases _ _ _ _ hget)⟩
    · rw [evict_of_ne ht]
      exact h

/-- In every state reached from a new tracker by calls other than `dispose`, the cache
and the token table hold the same user ids and every cached set is non-empty. -/
theorem run_keeps_cache_paired (ops : List Op) :
    ∀ t : PlaygroundAccessTracker, (∀ op ∈ ops, op ≠ .dispose) →
      ((∀ u, (JsMap.get t.cachedExceptions_ u).isSome
          = (JsMap.get t.cachedExceptionsToken_ u).isSome) ∧
        (∀ u e, JsMap.get t.cachedExceptions_ u = some e → JsSet.size e ≠ 0)) →
      ((∀ u, (JsMap.get (t.run ops).cachedExceptions_ u).isSome
          = (JsMap.get (t.run ops).cachedExceptionsToken_ u).isSome) ∧
        (∀ u e, JsMap.get (t.run ops).cachedExceptions_ u = some e →
          JsSet.size e ≠ 0)) := by
  induction ops with
  | nil =>
    intro t _ h
    exact h
  | cons op ops ih =>
    intro t hops h
    exact ih (t.apply op) (fun o ho => hops o (List.mem_cons_of_mem _ ho))
      (apply_keeps_cache_paired t op (hops op (List.mem_cons_self _ _)) h)

/-- C27 fails on the code: `gunther` is granted `c`, disconnects with token 5, and the
tracker is disposed. `dispose` clears the cache but not the token table: the state
reached holds the token 5 for the user id 42 and no cached set for it. -/
theorem dispose_leaves_token :
    JsMap.get (PlaygroundAccessTracker.new.run [.registerCommand "c" 2,
      .onPlayerLogin gunther, .addException "c" gunther none,
      .onPlayerDisconnect gunther 5, .dispose]).cachedExceptions_ (some 42) = none ∧
    JsMap.get (PlaygroundAccessTracker.new.run [.registerCommand "c" 2,
      .onPlayerLogin gunther, .addException "c" gunther none,
      .onPlayerDisconnect gunther 5, .dispose]).cachedExceptionsToken_ (some 42)
      = some 5 ∧
    ¬ (∀ (ops : List Op) (u : Option Nat),
      (JsMap.get (PlaygroundAccessTracker.new.run ops).cachedExceptions_ u).isSome
        = (JsMap.get (PlaygroundAccessTracker.new.run ops).cachedExceptionsToken_
            u).isSome) := by
  refine ⟨rfl, rfl, fun h => ?_⟩
  have := h [.registerCommand "c" 2, .onPlayerLogin gunther, .addException "c" gunther none,
    .onPlayerDisconnect gunther 5, .dispose] (some 42)
  revert this
  decide

/-- C28: `canAccessCommand` is a total function (the method has no `throw`); for a
command that is not registered it answers true exactly when
`player.level >= Player.LEVEL_ADMINISTRATOR` or the live exception set of the player
holds the command. -/
theorem canAccessCommand_of_unregistered (LEVEL_ADMINISTRATOR : Int)
    (t : PlaygroundAccessTracker) (command : String) (player : Player)
    (hunknown : t.getCommandLevel command = .error ("Invalid command given: " ++ command)) :
    (canAccessCommand LEVEL_ADMINISTRATOR t command player = true ↔
      (player.level ≥ LEVEL_ADMINISTRATOR ∨
        ∃ exceptions, JsMap.get t.exceptions_ player.ref = some exceptions ∧
          JsSet.has exceptions command = true)) ∧
    canAccessCommand LEVEL_ADMINISTRATOR t command player
      = canAccessCommand LEVEL_ADMINISTRATOR
          (t.registerCommand command LEVEL_ADMINISTRATOR) command player := by
  have hnone : JsMap.get t.commandLevels_ command = none := by
    unfold getCommandLevel at hunknown
    cases hget : JsMap.get t.commandLevels_ command with
    | none => rfl
    | some level => simp [hget] at hunknown
  have hiff : canAccessCommand LEVEL_ADMINISTRATOR t command player = true ↔
      (player.level ≥ LEVEL_ADMINISTRATOR ∨
        ∃ exceptions, JsMap.get t.exceptions_ player.ref = some exceptions ∧
          JsSet.has exceptions command = true) := by
    unfold canAccessCommand
    simp only [hnone]
    by_cases hl : player.level ≥ LEVEL_ADMINISTRATOR
    · simp [hl]
    · cases he : JsMap.get t.exceptions_ player.ref <;> simp [hl]
  refine ⟨hiff, ?_⟩
  have hreg : JsMap.get (t.registerCommand command LEVEL_ADMINISTRATOR).commandLevels_
      command = some LEVEL_ADMINISTRATOR := JsMap.get_set_self _ _ _
  rw [Bool.eq_iff_iff, hiff, canAccessCommand_of_level LEVEL_ADMINISTRATOR player hreg]
  rfl

/-- An instance of `canAccessCommand_of_unregistered`: the command `d` is not registered
in `granted`; with administrators at level 1, `russell` (level 2) may use it and `gunther`
(level 0, no exception for `d`) may not. -/
theorem canAccessCommand_of_unregistered_witness :
    granted.getCommandLevel "d" = .error ("Invalid command given: " ++ "d") ∧
    (canAccessCommand 1 granted "d" russell = true ↔
      (russell.level ≥ 1 ∨
        ∃ exceptions, JsMap.get granted.exceptions_ russell.ref = some exceptions ∧
          JsSet.has exceptions "d" = true)) ∧
    canAccessCommand 1 granted "d" gunther
      = canAccessCommand 1 (granted.registerCommand "d" 1) "d" gunther :=
  ⟨rfl, (canAccessCommand_of_unregistered 1 granted "d" russell rfl).1,
    (canAccessCommand_of_unregistered 1 granted "d" gunther rfl).2⟩

end PlaygroundAccessTracker

/-! ## Access and exceptions over histories -/

namespace PlaygroundAccessTracker

theorem get_delete_eq_none (m : JsMap Nat (JsSet String)) (k j : Nat)
    (h : JsMap.get m j = none) : JsMap.get (JsMap.delete m k) j = none := by
  by_cases hk : k = j
  · subst hk
    exact JsMap.get_delete_self m k
  · rw [JsMap.get_delete_other m hk]
    exact h

/-- One call keeps a player object without a live exception set, when the call is not made
for that object with a registered account and is not its login. -/
theorem apply_keeps_no_live_set {t : PlaygroundAccessTracker} {ref : Nat} (op : Op)
    (hguest : ∀ q, op.player = some q → q.ref = ref → q.account.isRegistered = false)
    (hlogin : ∀ q, op = .onPlayerLogin q → q.ref ≠ ref)
    (h : JsMap.get t.exceptions_ ref = none) :
    JsMap.get (t.apply op).exceptions_ ref = none := by
  cases op with
  | registerCommand command defaultLevel => exact h
  | unregisterCommand command =>
    show JsMap.get (t.unregisterCommand command).exceptions_ ref = none
    rw [get_exceptions_unregisterCommand, h]
    rfl
  | setCommandLevel command level =>
    by_cases hhas : JsMap.has t.commandLevels_ command = true <;>
      simp [apply, step, setCommandLevel, hhas, h]
  | addException command q sourcePlayer =>
    by_cases hreg : q.account.isRegistered = true
    · have hne : q.ref ≠ ref := by
        intro heq
        have := hguest q rfl heq
        rw [hreg] at this
        cases this
      obtain ⟨t1, hok, -, hex⟩ := addException_ok (t := t) command sourcePlayer hreg
      simp only [apply, step, hok, hex]
      rw [JsMap.get_set_other _ _ hne]
      exact h
    · simp [apply, step, addException, hreg, h]
  | removeException command q sourcePlayer =>
    by_cases hreg : q.account.isRegistered = true
    · have hne : q.ref ≠ ref := by
        intro heq
        have := hguest q rfl heq
        rw [hreg] at this
        cases this
      obtain ⟨t1, hok, -, hex⟩ := removeException_ok (t := t) command sourcePlayer hreg
      simp only [apply, step, hok, hex]
      cases hq : JsMap.get t.exceptions_ q.ref with
      | none => simpa using h
      | some exceptions =>
        simp only
        rw [JsMap.get_set_other _ _ hne]
        exact h
    · simp [apply, step, removeException, hreg, h]
  | onPlayerLogin q =>
    have hne : q.ref ≠ ref := hlogin q rfl
    show JsMap.get (t.onPlayerLogin q).exceptions_ ref = none
    cases hc : JsMap.get t.cachedExceptions_ q.account.userId with
    | none =>
      rw [onPlayerLogin_of_not_cached hc]
      exact h
    | some cached =>
      rw [onPlayerLogin_of_cached hc]
      show JsMap.get (JsMap.set t.exceptions_ q.ref cached) ref = none
      rw [JsMap.get_set_other _ _ hne]
      exact h
  | onPlayerDisconnect q token =>
    show JsMap.get (t.onPlayerDisconnect q token).exceptions_ ref = none
    cases hq : JsMap.get t.exceptions_ q.ref with
    | none =>
      rw [onPlayerDisconnect_of_none token hq]
      exact h
    | some exceptions =>
      by_cases hsize : JsSet.size exceptions = 0
      · rw [onPlayerDisconnect_of_empty token hq hsize]
        exact get_delete_eq_none _ _ _ h
      · rw [onPlayerDisconnect_of_held token hq hsize]
        exact get_delete_eq_none _ _ _ h
  | evict userId token =>
    show JsMap.get (t.evict userId token).exceptions_ ref = none
    by_cases ht : JsMap.get t.cachedExceptionsToken_ userId = some token
    · rw [evict_of_eq ht]
      exact h
    · rw [evict_of_ne ht]
      exact h
  | dispose => rfl

/-- A history keeps a player object without a live exception set, when none of its calls
is made for that object with a registered account and none is its login. -/
theorem run_keeps_no_live_set {ref : Nat} (ops : List Op) :
    ∀ (t : PlaygroundAccessTracker),
      (∀ op ∈ ops, ∀ q, op.player = some q → q.ref = ref → q.account.isRegistered = false) →
      (∀ q, Op.onPlayerLogin q ∈ ops → q.ref ≠ ref) →
      JsMap.get t.exceptions_ ref = none →
      JsMap.get (t.run ops).exceptions_ ref = none := by
  induction ops with
  | nil => intro t _ _ h; exact h
  | cons op ops ih =>
    intro t hguest hlogin h
    refine ih (t.apply op) (fun o ho => hguest o (List.mem_cons_of_mem _ ho))
      (fun q hq => hlogin q (List.mem_cons_of_mem _ hq)) ?_
    exact apply_keeps_no_live_set op (hguest op (List.mem_cons_self _ _))
      (fun q hq => hlogin q (hq ▸ List.mem_cons_self _ _)) h

/-- After a history of calls on a new tracker, a player whose account is not registered
has no live exception set, when the account of their player object never went from
registered to not registered and the object never logged in without a registered
account. -/
theorem no_live_set_of_unregistered (ops : List Op) (player : Player)
    (hstable : ∀ op ∈ ops, ∀ q, op.player = some q → q.ref = player.ref →
      q.account.isRegistered = true → player.account.isRegistered = true)
    (hlogins : ∀ q, Op.onPlayerLogin q ∈ ops → q.ref = player.ref →
      q.account.isRegistered = true)
    (hguest : player.account.isRegistered = false) :
    JsMap.get (new.run ops).exceptions_ player.ref = none := by
  refine run_keeps_no_live_set ops new ?_ ?_ rfl
  · intro op hop q hq href
    cases hreg : q.account.isRegistered with
    | false => rfl
    | true =>
      have := hstable op hop q hq href hreg
      rw [hguest] at this
      cases this
  · intro q hq href
    have hreg := hlogins q hq href
    have := hstable _ hq q rfl href hreg
    rw [hguest] at this
    cases this

/-- C1: take any history of calls on a new tracker in which the account of the player
object of `player` never goes from registered to not registered and in which that object
logs in only with a registered account. For every command that is registered after the
history, `canAccessCommand(command, player)` returns true exactly when `player.level` is at
least the current level of the command or `hasException(command, player)` is true. In
particular, right after `registerCommand(command, L)` a player below `L` for whom
`hasException(command, player)` is false is denied, and, in any state of the tracker, a
player at or above `L` is allowed. -/
theorem canAccessCommand_iff_hasException (LEVEL_ADMINISTRATOR : Int) (ops : List Op)
    (command : String) (player : Player)
    (hstable : ∀ op ∈ ops, ∀ q, op.player = some q → q.ref = player.ref →
      q.account.isRegistered = true → player.account.isRegistered = true)
    (hlogins : ∀ q, Op.onPlayerLogin q ∈ ops → q.ref = player.ref →
      q.account.isRegistered = true) :
    (∀ level : Int, (new.run ops).getCommandLevel command = .ok level →
      (canAccessCommand LEVEL_ADMINISTRATOR (new.run ops) command player = true ↔
        (player.level ≥ level ∨ (new.run ops).hasException command player = true))) ∧
    (∀ L : Int, player.level < L →
      ((new.run ops).registerCommand command L).hasException command player = false →
      canAccessCommand LEVEL_ADMINISTRATOR ((new.run ops).registerCommand command L)
        command player = false) ∧
    (∀ (t : PlaygroundAccessTracker) (L : Int), player.level ≥ L →
      canAccessCommand LEVEL_ADMINISTRATOR (t.registerCommand command L) command player
        = true) := by
  have key : ∀ (t : PlaygroundAccessTracker) (level : Int),
      t.exceptions_ = (new.run ops).exceptions_ →
      JsMap.get t.commandLevels_ command = some level →
      (canAccessCommand LEVEL_ADMINISTRATOR t command player = true ↔
        (player.level ≥ level ∨ t.hasException command player = true)) := by
    intro t level hex h
    cases hreg : player.account.isRegistered with
    | true =>
      rw [canAccessCommand_of_level _ player h, hasException_of_registered command hreg]
    | false =>
      have hnone := no_live_set_of_unregistered ops player hstable hlogins hreg
      rw [← hex] at hnone
      rw [canAccessCommand_of_level _ player h]
      simp [hasException, hreg, hnone]
  refine ⟨fun level hlevel => key _ level rfl (getCommandLevel_eq_ok.mp hlevel),
    fun L hlt hno => ?_, fun t L hge => ?_⟩
  · have hiff := key ((new.run ops).registerCommand command L) L rfl
      (JsMap.get_set_self _ _ _)
    cases hc : canAccessCommand LEVEL_ADMINISTRATOR ((new.run ops).registerCommand command L)
        command player with
    | false => rfl
    | true =>
      rcases hiff.mp hc with hge | hhas
      · omega
      · rw [hno] at hhas
        cases hhas
  · exact (canAccessCommand_of_level LEVEL_ADMINISTRATOR player
      (JsMap.get_set_self t.commandLevels_ command L)).mpr (Or.inl hge)

/-- An instance of `canAccessCommand_iff_hasException`: after `c` is registered at level
2, `gunther` logs in and is granted `c`, and a grant to the unregistered `guntherAsGuest`
is refused, `gunther` of level 0 holds the exception and is allowed, and `guntherAsGuest`
of level 0 holds none and is denied. -/
theorem canAccessCommand_iff_hasException_witness :
    ((canAccessCommand 3
        (new.run [.registerCommand "c" 2, .onPlayerLogin gunther,
          .addException "c" gunther none, .addException "c" guntherAsGuest (some russell)])
        "c" gunther = true ↔
      (gunther.level ≥ 2 ∨
        (new.run [.registerCommand "c" 2, .onPlayerLogin gunther,
          .addException "c" gunther none, .addException "c" guntherAsGuest (some russell)]).hasException
          "c" gunther = true)) ∧
      canAccessCommand 3
        (new.run [.registerCommand "c" 2, .onPlayerLogin gunther,
          .addException "c" gunther none, .addException "c" guntherAsGuest (some russell)])
        "c" gunther = true) ∧
    ((canAccessCommand 3
        (new.run [.registerCommand "c" 2, .onPlayerLogin gunther,
          .addException "c" gunther none, .addException "c" guntherAsGuest (some russell)])
        "c" guntherAsGuest = true ↔
      (guntherAsGuest.level ≥ 2 ∨
        (new.run [.registerCommand "c" 2, .onPlayerLogin gunther,
          .addException "c" gunther none, .addException "c" guntherAsGuest (some russell)]).hasException
          "c" guntherAsGuest = true)) ∧
      canAccessCommand 3
        (new.run [.registerCommand "c" 2, .onPlayerLogin gunther,
          .addException "c" gunther none, .addException "c" guntherAsGuest (some russell)])
        "c" guntherAsGuest = false) :=
  ⟨⟨(canAccessCommand_iff_hasException 3
        [.registerCommand "c" 2, .onPlayerLogin gunther,
          .addException "c" gunther none, .addException "c" guntherAsGuest (some russell)]
        "c" gunther (fun _ _ _ _ _ _ => rfl)
        (by
          intro q hq _
          simp only [List.mem_cons, List.mem_singleton, reduceCtorEq, false_or, or_false,
            Op.onPlayerLogin.injEq, List.mem_nil_iff] at hq
          subst hq
          rfl)).1 2 rfl, by decide⟩,
    ⟨(canAccessCommand_iff_hasException 3
        [.registerCommand "c" 2, .onPlayerLogin gunther,
          .addException "c" gunther none, .addException "c" guntherAsGuest (some russell)]
        "c" guntherAsGuest
        (by
          intro op hop q hq href hreg
          simp only [List.mem_cons, List.mem_singleton, List.mem_nil_iff, or_false] at hop
          rcases hop with rfl | rfl | rfl | rfl
          · cases hq
          · cases hq
            cases href
          · cases hq
            cases href
          · cases hq
            cases hreg)
        (by
          intro q hq href
          simp only [List.mem_cons, List.mem_singleton, reduceCtorEq, false_or, or_false,
            Op.onPlayerLogin.injEq, List.mem_nil_iff] at hq
          subst hq
          cases href)).1 2 rfl, by decide⟩⟩

end PlaygroundAccessTracker

/-! ## Disconnecting without a login -/

namespace PlaygroundAccessTracker

/-- C15 fails on the code for a player who never passed through `onPlayerLogin`:
`userIds_` has no entry for them, so `onPlayerDisconnect` files their exception set under
the key `undefined` instead of their user id. `lucy` is registered with the user id 9 and
was granted `c` without a login; after `onPlayerDisconnect(lucy)` she has left the live
table, nothing is cached under 9, her set and the token 5 are cached under `undefined`,
the eviction is scheduled after 300000 ms for `undefined`, and when her account logs in
again as `lucyAgain` nothing is restored: no message is sent and
`hasException('c', lucyAgain)` is false. -/
theorem onPlayerDisconnect_without_login_caches_under_undefined :
    lucy.account.isRegistered = true ∧ lucy.account.userId = some 9 ∧
    JsMap.get (new.run [.registerCommand "c" 2, .addException "c" lucy none]).exceptions_
      lucy.ref = some ["c"] ∧
    JsMap.get
      ((new.run [.registerCommand "c" 2, .addException "c" lucy none]).onPlayerDisconnect
        lucy 5).exceptions_ lucy.ref = none ∧
    JsMap.get
      ((new.run [.registerCommand "c" 2, .addException "c" lucy none]).onPlayerDisconnect
        lucy 5).cachedExceptions_ (some 9) = none ∧
    JsMap.get
      ((new.run [.registerCommand "c" 2, .addException "c" lucy none]).onPlayerDisconnect
        lucy 5).cachedExceptions_ none = some ["c"] ∧
    JsMap.get
      ((new.run [.registerCommand "c" 2, .addException "c" lucy none]).onPlayerDisconnect
        lucy 5).cachedExceptionsToken_ none = some 5 ∧
    ((new.run [.registerCommand "c" 2, .addException "c" lucy none]).onPlayerDisconnect
        lucy 5).timers = [Timer.mk 300000 none 5] ∧
    lucyAgain.account.userId = some 9 ∧
    (((new.run [.registerCommand "c" 2, .addException "c" lucy none]).onPlayerDisconnect
        lucy 5).onPlayerLogin lucyAgain).sent = [] ∧
    (((new.run [.registerCommand "c" 2, .addException "c" lucy none]).onPlayerDisconnect
        lucy 5).onPlayerLogin lucyAgain).hasException "c" lucyAgain = false := by
  decide

end PlaygroundAccessTracker
